import Mathlib

/-!
Verification of the Monte Carlo FX TARF proxy engine
(`ql/experimental/fx/fxtarf.hpp`, class `McFxTarfEngine` and its
`QuadraticProxyFunction`).

The C++ `Real` (IEEE double) is embedded as `ℚ`; machine constants
`QL_EPSILON`, `QL_MAX_REAL` are embedded as the exact rational values of
`DBL_EPSILON` and `DBL_MAX`.  Fallible code (`QL_REQUIRE`) is embedded as
`Except EngineError`; the payload of each error constructor records exactly
the data the corresponding C++ message interpolates.  Fields of
`QuadraticProxyFunction` that the C++ constructor leaves uninitialized on
some control paths are embedded as `Option`, with `none` meaning
"never assigned"; any read of such a field by `operator()` yields `none`
for the whole evaluation.
-/

namespace FxTarfProxy

/-- QL_EPSILON, the exact value of DBL_EPSILON. -/
def qlEpsilon : ℚ := 1 / 2 ^ 52

/-- QL_MAX_REAL, the exact value of DBL_MAX. -/
def qlMaxReal : ℚ := (2 - 1 / 2 ^ 52) * 2 ^ 1023

/-- close(x, 0.0) of ql/math/comparison.hpp (this header is repository code
not included under src/; like the source, `McFxTarfEngine` only ever calls
it with second argument the literal 0.0).  For `y = 0` the C++ reduces to:
true when `x == 0`, else `|x| < (42 * QL_EPSILON)^2`; since the tolerance is
positive the two cases merge into a single strict comparison. -/
def close0 (x : ℚ) : Bool := |x| < (42 * qlEpsilon) ^ 2

/-- Option::Type of the underlying payoff (call-like / put-like). -/
inductive OptType where
  | call : OptType
  | put : OptType
deriving DecidableEq, Repr

/-- Structured error values: one constructor per QL_REQUIRE of the engine
code, carrying exactly the data that the corresponding C++ message
interpolates (and nothing else). -/
inductive EngineError where
  /-- lowerCutoff must be less or equal (call) / greater or equal (put)
  than cutoff; the message shows both values and the option type. -/
  | lowerCutoffNotOrdered : ℚ → ℚ → OptType → EngineError
  /-- for a1 (resp. a2) numerically zero the linear coefficient must be
  positive; the message names the segment (1 or 2) and shows b. -/
  | bNotPositive : ℕ → ℚ → EngineError
  /-- too few points for regression in set 1 / set 2; the message names the
  set and shows its size.  No fixing index appears in the message. -/
  | tooFewPoints : ℕ → ℕ → EngineError
  /-- no time steps provided (constructor / factory conversion). -/
  | noTimeSteps : EngineError
  /-- both time steps and time steps per year were provided. -/
  | timeStepsOverspecified : EngineError
  /-- timeSteps must be positive. -/
  | zeroTimeSteps : EngineError
  /-- timeStepsPerYear must be positive. -/
  | zeroTimeStepsPerYear : EngineError
  /-- no discount curve given. -/
  | noDiscountCurve : EngineError
  /-- tolerance already set (MakeMcFxTarfEngine::withSamples). -/
  | toleranceAlreadySet : EngineError
  /-- number of samples already set (withAbsoluteTolerance). -/
  | samplesAlreadySet : EngineError
  /-- chosen random generator policy does not allow an error estimate. -/
  | noErrorEstimate : EngineError
deriving DecidableEq, Repr

/-- McFxTarfEngine::QuadraticProxyFunction.  `flatExtrapolationType1/2`
and `extrapolationPoint1/2` are `Option` because the C++ constructor
assigns them only when the corresponding quadratic coefficient is not
numerically zero. -/
structure QPF where
  type : OptType
  a1 : ℚ
  b1 : ℚ
  c1 : ℚ
  a2 : ℚ
  b2 : ℚ
  c2 : ℚ
  cutoff : ℚ
  lowerCutoff : ℚ
  coreRegionMin : ℚ
  coreRegionMax : ℚ
  flatExtrapolationType1 : Option ℤ
  extrapolationPoint1 : Option ℚ
  flatExtrapolationType2 : Option ℤ
  extrapolationPoint2 : Option ℚ
deriving DecidableEq, Repr

/-- QuadraticProxyFunction constructor (fxtarf.hpp lines 288-321): the
QL_REQUIREs become `Except.error`; field assignments happen in source
order, so a failing check for segment 1 fires before the check for
segment 2. -/
def mkQuadraticProxyFunction (t : OptType) (cutoff a1 b1 c1 a2 b2 c2 lowerCutoff coreRegionMin coreRegionMax : ℚ) :
    Except EngineError QPF :=
  if ¬ ((t = OptType.call ∧ lowerCutoff ≤ cutoff) ∨ (t = OptType.put ∧ lowerCutoff ≥ cutoff)) then
    Except.error (EngineError.lowerCutoffNotOrdered lowerCutoff cutoff t)
  else if close0 a1 ∧ ¬ b1 > 0 then
    Except.error (EngineError.bNotPositive 1 b1)
  else if close0 a2 ∧ ¬ b2 > 0 then
    Except.error (EngineError.bNotPositive 2 b2)
  else
    Except.ok
      { type := t, a1 := a1, b1 := b1, c1 := c1, a2 := a2, b2 := b2, c2 := c2
        cutoff := cutoff, lowerCutoff := lowerCutoff
        coreRegionMin := coreRegionMin, coreRegionMax := coreRegionMax
        flatExtrapolationType1 :=
          if close0 a1 then none
          else some ((if t = OptType.call then 1 else -1) * (if a1 > 0 then -1 else 1))
        extrapolationPoint1 := if close0 a1 then none else some (-b1 / (2 * a1))
        flatExtrapolationType2 :=
          if close0 a2 then none
          else some ((if t = OptType.call then 1 else -1) * (if a2 > 0 then -1 else 1))
        extrapolationPoint2 := if close0 a2 then none else some (-b2 / (2 * a2)) }

/-- a * x^2 + b * x + c. -/
def quadAt (a b c x : ℚ) : ℚ := a * x * x + b * x + c

/-- The linear extrapolation used outside lowerCutoff:
(2*a*l + b) * x + c - a*l*l (the tangent of the quadratic at l). -/
def linAt (a b c l x : ℚ) : ℚ := (2 * a * l + b) * x + c - a * l * l

/-- The clamp ft * min(ft * e, ft * x) of operator(): for ft = 1 it is
min e x, for ft = -1 it is max e x. -/
def clampTo (ft : ℤ) (e x : ℚ) : ℚ := (ft : ℚ) * min ((ft : ℚ) * e) ((ft : ℚ) * x)

/-- Body of the `spot <= cutoff` branch of operator() past the linear
extrapolation test: clamp toward the segment-1 vertex, evaluate the
quadratic and, for puts, take the max with segment 2 evaluated at the
(clamped) cutoff.  Reads of never-assigned fields yield `none`. -/
def leftQuadVal (f : QPF) (spot : ℚ) : Option ℚ :=
  match f.flatExtrapolationType1, f.extrapolationPoint1 with
  | some ft1, some e1 =>
    let tmp := quadAt f.a1 f.b1 f.c1 (clampTo ft1 e1 spot)
    if f.type = OptType.put then
      match f.flatExtrapolationType2, f.extrapolationPoint2 with
      | some ft2, some e2 =>
        some (max (quadAt f.a2 f.b2 f.c2 (clampTo ft2 e2 f.cutoff)) tmp)
      | _, _ => none
    else some tmp
  | _, _ => none

/-- Body of the `spot > cutoff` branch of operator() past the linear
extrapolation test: symmetric to `leftQuadVal`, with the call-side
monotonicity patch. -/
def rightQuadVal (f : QPF) (spot : ℚ) : Option ℚ :=
  match f.flatExtrapolationType2, f.extrapolationPoint2 with
  | some ft2, some e2 =>
    let tmp := quadAt f.a2 f.b2 f.c2 (clampTo ft2 e2 spot)
    if f.type = OptType.call then
      match f.flatExtrapolationType1, f.extrapolationPoint1 with
      | some ft1, some e1 =>
        some (max (quadAt f.a1 f.b1 f.c1 (clampTo ft1 e1 f.cutoff)) tmp)
      | _, _ => none
    else some tmp
  | _, _ => none

/-- QuadraticProxyFunction::operator() (fxtarf.hpp lines 323-368).  The
C++ `&&` short-circuits left to right, so `flatExtrapolationType1` is read
by the first condition only after `spot <= lowerCutoff && type == Call`
holds; it is read unconditionally afterwards by the clamp. -/
def evalQPF (f : QPF) (spot : ℚ) : Option ℚ :=
  if spot ≤ f.cutoff then
    if spot ≤ f.lowerCutoff ∧ f.type = OptType.call then
      match f.flatExtrapolationType1 with
      | none => none
      | some ft1 =>
        if ft1 = 1 then some (linAt f.a1 f.b1 f.c1 f.lowerCutoff spot)
        else leftQuadVal f spot
    else leftQuadVal f spot
  else
    if f.lowerCutoff ≤ spot ∧ f.type = OptType.put then
      match f.flatExtrapolationType2 with
      | none => none
      | some ft2 =>
        if ft2 = -1 then some (linAt f.a2 f.b2 f.c2 f.lowerCutoff spot)
        else rightQuadVal f spot
    else rightQuadVal f spot

/-! Heuristic constants hardcoded in McFxTarfEngine::calculate
(fxtarf.hpp lines 489-518). -/

/-- number of buckets for accumulated amounts. -/
def nAccBuckets : ℕ := 5

/-- density factor for bucket merging. -/
def dFactor : ℕ := 10

/-- relative cutoff separating the two regression segments (calls). -/
def relCutoff : ℚ := 80 / 100

/-- minCutoffRatio of the source: required share of points in the smaller
segment. -/
def minCutoffFraction : ℚ := 33 / 100

/-- factor by which the relative cutoff is shrunk. -/
def cutoffShrinkFactor : ℚ := 99 / 100

/-- percentile for the lower (linear-extrapolation) cutoff. -/
def minLowerExtr : ℚ := 5 / 100

/-- percentile chopped off on each side for the core (trusted) region. -/
def coreCutoff : ℚ := 1 / 100

/-- minimum number of points required for regression. -/
def minRegPoints : ℕ := 3

/-- An observation pair (spot, discounted npv). -/
abbrev Obs := ℚ × ℚ

/-- std::pair operator< (lexicographic), as used by std::merge and
std::upper_bound on the (spot, npv) pairs. -/
def pairLt (p q : Obs) : Bool :=
  decide (p.1 < q.1) || (decide (p.1 = q.1) && decide (p.2 < q.2))

/-- C++ Real-to-Size conversion (truncation toward zero; every use in the
engine applies it to a nonnegative value, where truncation is the floor). -/
def ratToSize (q : ℚ) : ℕ := (Int.floor q).toNat

/-- std::merge of two sorted (spot, npv) ranges with the lexicographic
pair order: the element of the second range is taken first exactly when it
is strictly smaller. -/
def mergeObs : List Obs → List Obs → List Obs
  | [], ys => ys
  | x :: xs, [] => x :: xs
  | x :: xs, y :: ys =>
    if pairLt y x then y :: mergeObs (x :: xs) ys
    else x :: mergeObs xs (y :: ys)
termination_by l r => l.length + r.length

/-- Size of the lower segment as computed by the engine:
std::upper_bound(xTmp, make_pair(cutoff, 0.0)) - xTmp.begin(), i.e. on the
sorted data the number of pairs lexicographically not above (cutoff, 0.0). -/
def upperBoundSize (cutoff : ℚ) (xTmp : List Obs) : ℕ :=
  xTmp.countP (fun p => !pairLt (cutoff, 0) p)

/-- cutoff = spotMin + relCutoffTmp * (spotMax - spotMin). -/
def cutoffOf (spotMin spotMax r : ℚ) : ℚ := spotMin + r * (spotMax - spotMin)

/-- The critical (minority, extrapolation-risk) segment size: sizeB for
calls, sizeA for puts. -/
def criticalSize (isCall : Bool) (xTmp : List Obs) (cutoff : ℚ) : ℕ :=
  let sizeA := upperBoundSize cutoff xTmp
  if isCall then xTmp.length - sizeA else sizeA

/-- Loop side guard: relCutoffTmp > 0.5 for calls, < 0.5 for puts. -/
def sideCond (isCall : Bool) (r : ℚ) : Bool :=
  if isCall then decide (r > 1 / 2) else decide (r < 1 / 2)

/-- One shrink of the relative cutoff: multiply by the shrink factor for
calls, divide by std::min(shrinkFactor, 1.0) for puts. -/
def shrinkStep (isCall : Bool) (r : ℚ) : ℚ :=
  if isCall then r * cutoffShrinkFactor else r / min cutoffShrinkFactor 1

/-- The size condition of the loop: the critical segment is below the
(fixed) minimum data segment size or below minRegPoints.  The C++ computes
minDataSegment once, before the loop, from the initial relCutoffTmp. -/
def belowMinimum (isCall : Bool) (xTmp : List Obs) (spotMin spotMax : ℚ)
    (minDataSegment : ℕ) (r : ℚ) : Bool :=
  decide (criticalSize isCall xTmp (cutoffOf spotMin spotMax r) < minDataSegment) ||
    decide (criticalSize isCall xTmp (cutoffOf spotMin spotMax r) < minRegPoints)

/-- The cutoff-shrinking do-while loop (fxtarf.hpp lines 663-696),
embedded faithfully: the body recomputes the segment sizes, shrinks under
the guard, and the while condition re-reads the side guard at the new
relCutoffTmp but the size condition from the sizes computed before the
shrink.  Termination is by explicit fuel; the loop provably exits once
relCutoffTmp crosses 0.5. -/
def shrinkLoopSrc (isCall : Bool) (xTmp : List Obs) (spotMin spotMax : ℚ)
    (minDataSegment : ℕ) : ℕ → ℚ → ℚ
  | 0, r => r
  | fuel + 1, r =>
    if sideCond isCall r && belowMinimum isCall xTmp spotMin spotMax minDataSegment r then
      let r2 := shrinkStep isCall r
      if sideCond isCall r2 then
        shrinkLoopSrc isCall xTmp spotMin spotMax minDataSegment fuel r2
      else r2
    else r

/-- Plain while-loop restatement of the shrink loop: iterate while the
side guard holds and the critical segment is below the fixed minimum data
segment size or below minRegPoints (the amended form of claim C4). -/
def shrinkLoopAmended (isCall : Bool) (xTmp : List Obs) (spotMin spotMax : ℚ)
    (minDataSegment : ℕ) : ℕ → ℚ → ℚ
  | 0, r => r
  | fuel + 1, r =>
    if sideCond isCall r && belowMinimum isCall xTmp spotMin spotMax minDataSegment r then
      shrinkLoopAmended isCall xTmp spotMin spotMax minDataSegment fuel (shrinkStep isCall r)
    else r

/-- minDataSegment as the claim words it, recomputed from the current
relCutoffTmp: Rmin * (1 - Rtmp) * N + 1 (truncated). -/
def minDataSegmentClaim (n : ℕ) (r : ℚ) : ℕ :=
  ratToSize (minCutoffFraction * (1 - r) * (n : ℚ)) + 1

/-- The shrink loop as claim C4 words it: iterate while the critical
segment's size is below both Rmin*(1-Rtmp)*N + 1 (recomputed from the
current Rtmp) and minRegPoints; stop as soon as the minimum is met or
Rtmp crosses 0.5. -/
def shrinkLoopClaimed (isCall : Bool) (xTmp : List Obs) (spotMin spotMax : ℚ) :
    ℕ → ℚ → ℚ
  | 0, r => r
  | fuel + 1, r =>
    if sideCond isCall r &&
        (decide (criticalSize isCall xTmp (cutoffOf spotMin spotMax r) <
            minDataSegmentClaim xTmp.length r) &&
          decide (criticalSize isCall xTmp (cutoffOf spotMin spotMax r) < minRegPoints)) then
      shrinkLoopClaimed isCall xTmp spotMin spotMax fuel (shrinkStep isCall r)
    else r

/-- Points with spot <= cutoff (regression set 1, fxtarf.hpp lines 699-707). -/
def splitLe (cutoff : ℚ) (xTmp : List Obs) : List Obs :=
  xTmp.filter (fun p => decide (p.1 ≤ cutoff))

/-- Points with spot > cutoff (regression set 2). -/
def splitGt (cutoff : ℚ) (xTmp : List Obs) : List Obs :=
  xTmp.filter (fun p => !decide (p.1 ≤ cutoff))

/-- Spot at a truncated-index percentile: xTmp[size * q].first.  On an
empty data set the C++ indexing is out of range; the model returns the
spot of the default pair (0, 0). -/
def percentileSpot (xTmp : List Obs) (q : ℚ) : ℚ :=
  (xTmp.getD (ratToSize ((xTmp.length : ℚ) * q)) (0, 0)).1

/-- Modelled from the spec: the Quadratic Regressor.  The engine calls
GeneralLinearLeastSquares (ql/math/generallinearleastsquares.hpp), which is
repository code not included under src/; per the spec it is an ordinary
least-squares fit of each segment onto the basis set 1, x, x^2.  It is
modelled by the normal equations solved with Cramer's rule, a pure function
of the power sums of the data; the result triple is (constant, linear,
quadratic) coefficient, matching result[0], result[1], result[2] of the
source.  A singular system yields (0, 0, 0). -/
def lsCoeffs (pts : List Obs) : ℚ × ℚ × ℚ :=
  let n : ℚ := (pts.length : ℚ)
  let s1 := (pts.map (fun p => p.1)).sum
  let s2 := (pts.map (fun p => p.1 ^ 2)).sum
  let s3 := (pts.map (fun p => p.1 ^ 3)).sum
  let s4 := (pts.map (fun p => p.1 ^ 4)).sum
  let t0 := (pts.map (fun p => p.2)).sum
  let t1 := (pts.map (fun p => p.1 * p.2)).sum
  let t2 := (pts.map (fun p => p.1 ^ 2 * p.2)).sum
  let det := n * (s2 * s4 - s3 * s3) - s1 * (s1 * s4 - s2 * s3) + s2 * (s1 * s3 - s2 * s2)
  if det = 0 then (0, 0, 0)
  else
    ((t0 * (s2 * s4 - s3 * s3) - s1 * (t1 * s4 - t2 * s3) + s2 * (t1 * s3 - t2 * s2)) / det,
      (n * (t1 * s4 - t2 * s3) - t0 * (s1 * s4 - s2 * s3) + s2 * (s1 * t2 - s2 * t1)) / det,
      (n * (s2 * t2 - s3 * t1) - s1 * (s1 * t2 - s2 * t1) + t0 * (s1 * s3 - s2 * s2)) / det)

/-- The final cutoff of one merged group: the fixed minDataSegment
(computed from the initial cutoff fraction, fxtarf.hpp lines 659-662),
the shrink loop, and cutoff = spotMin + Rtmp * (spotMax - spotMin). -/
def groupCutoff (isCall : Bool) (fuel : ℕ) (xTmp : List Obs) (spotMin spotMax : ℚ) : ℚ :=
  let r0 := if isCall then relCutoff else 1 - relCutoff
  let minData := ratToSize ((1 - r0) * minCutoffFraction * (xTmp.length : ℚ)) + 1
  cutoffOf spotMin spotMax (shrinkLoopSrc isCall xTmp spotMin spotMax minData fuel r0)

/-- Processing of one merged group, continued (fxtarf.hpp lines 651-819):
segment split at the adaptive cutoff, percentile cutoffs, the degenerate
constant fallback when the spot range is below QL_EPSILON, the minimum
point checks (QL_REQUIRE "too few points for regression in set 1/2"), the
per-segment regression, the final clamp of lowerCutoff and the
QuadraticProxyFunction construction. -/
def processGroup (isCall : Bool) (fuel : ℕ) (xTmp : List Obs) (spotMin spotMax : ℚ) :
    Except EngineError QPF :=
  let t := if isCall then OptType.call else OptType.put
  let cutoff := groupCutoff isCall fuel xTmp spotMin spotMax
  let xTmp1 := splitLe cutoff xTmp
  let xTmp2 := splitGt cutoff xTmp
  let lowerCutoff := percentileSpot xTmp (if isCall then minLowerExtr else 1 - minLowerExtr)
  let coreRegionMin := percentileSpot xTmp coreCutoff
  let coreRegionMax := percentileSpot xTmp (1 - coreCutoff)
  if |spotMax - spotMin| < qlEpsilon then
    let avg := ((xTmp1.map (fun p => p.2)).sum + (xTmp2.map (fun p => p.2)).sum) /
      ((xTmp1.length + xTmp2.length : ℕ) : ℚ)
    mkQuadraticProxyFunction t cutoff 0 0 avg 0 0 avg (-qlMaxReal) spotMin spotMax
  else if xTmp1.length < minRegPoints then
    Except.error (EngineError.tooFewPoints 1 xTmp1.length)
  else if xTmp2.length < minRegPoints then
    Except.error (EngineError.tooFewPoints 2 xTmp2.length)
  else
    let cba1 := lsCoeffs xTmp1
    let cba2 := lsCoeffs xTmp2
    mkQuadraticProxyFunction t cutoff cba1.2.2 cba1.2.1 cba1.1 cba2.2.2 cba2.2.1 cba2.1
      (min lowerCutoff cutoff) coreRegionMin coreRegionMax

/-- Total number of observations over a list of buckets. -/
def sumSizes (bs : List (List Obs)) : ℕ := (bs.map List.length).sum

/-- Fold std::merge over the remaining buckets (the tail-join of the
merging stage). -/
def foldMergeAll (acc : List Obs) (bs : List (List Obs)) : List Obs :=
  bs.foldl mergeObs acc

/-- The bucket-merging do-while loops of McFxTarfEngine::calculate
(fxtarf.hpp lines 594-647): consume consecutive buckets into a running
group until dFactor * groupSize >= total, then fold the whole remaining
tail into the group when dFactor * tailSize < total; repeat on the rest.
Each group is returned with the number of buckets it consumed (the index
range [k0Before, k0)). -/
def mergeGroupsAux (dF total : ℕ) (acc : List Obs) (cnt : ℕ) :
    List (List Obs) → List (List Obs × ℕ)
  | [] => [(acc, cnt)]
  | b :: rest =>
    let acc2 := mergeObs acc b
    if dF * acc2.length < total then mergeGroupsAux dF total acc2 (cnt + 1) rest
    else if rest = [] then [(acc2, cnt + 1)]
    else if dF * sumSizes rest < total then
      [(foldMergeAll acc2 rest, cnt + 1 + rest.length)]
    else (acc2, cnt + 1) :: mergeGroupsAux dF total [] 0 rest

/-- Top-level bucket merging for one fixing index. -/
def mergeBuckets (dF : ℕ) (bs : List (List Obs)) : List (List Obs × ℕ) :=
  match bs with
  | [] => []
  | _ :: _ => mergeGroupsAux dF (sumSizes bs) [] 0 bs

/-- Spot minimum tracked during merging: minimum over the group's
observations, starting from QL_MAX_REAL (fxtarf.hpp lines 597, 604-609). -/
def groupSpotMin (g : List Obs) : ℚ := (g.map (fun p => p.1)).foldl min qlMaxReal

/-- Spot maximum tracked during merging, starting from QL_MIN_REAL. -/
def groupSpotMax (g : List Obs) : ℚ := (g.map (fun p => p.1)).foldl max (-qlMaxReal)

/-- Sequential group processing for one fixing index: the first failing
QL_REQUIRE aborts the whole calculation (C++ exception); each group's
function is stored on every bucket index the group consumed
(fxtarf.hpp lines 821-831). -/
def buildGroups (isCall : Bool) (fuel : ℕ) :
    List (List Obs × ℕ) → Except EngineError (List QPF)
  | [] => Except.ok []
  | (g, k) :: rest =>
    match processGroup isCall fuel g (groupSpotMin g) (groupSpotMax g) with
    | Except.error e => Except.error e
    | Except.ok fct =>
      match buildGroups isCall fuel rest with
      | Except.error e => Except.error e
      | Except.ok fs => Except.ok (List.replicate k fct ++ fs)

/-- Proxy-function row for one fixing index: merge the buckets, process
each merged group, replicate each group's function over its bucket range. -/
def buildRow (isCall : Bool) (fuel : ℕ) (buckets : List (List Obs)) :
    Except EngineError (List QPF) :=
  buildGroups isCall fuel (mergeBuckets dFactor buckets)

/-- The regression stage over all open fixing indices (the outer for loop
of fxtarf.hpp lines 576-835). -/
def buildProxyFunctions (isCall : Bool) (fuel : ℕ) :
    List (List (List Obs)) → Except EngineError (List (List QPF))
  | [] => Except.ok []
  | row :: rest =>
    match buildRow isCall fuel row with
    | Except.error e => Except.error e
    | Except.ok fs =>
      match buildProxyFunctions isCall fuel rest with
      | Except.error e => Except.error e
      | Except.ok rows => Except.ok (fs :: rows)

/-- Accumulated-amount bucket limits (fxtarf.hpp lines 526-539): entry i is
i/n * (target - accumulatedAmount) + accumulatedAmount, and afterwards the
first entry is overwritten with 0. -/
def accBucketLimits (n : ℕ) (target accumulatedAmount : ℚ) : List ℚ :=
  ((List.range n).map
    (fun i : ℕ => (i : ℚ) / (n : ℚ) * (target - accumulatedAmount) + accumulatedAmount)).set 0 0

/-! Engine configuration (MakeMcFxTarfEngine, fxtarf.hpp lines 876-967,
and the McFxTarfEngine constructor, lines 429-453).  Null<Size> and
Null<Real> are embedded as `none`. -/

/-- The builder state of MakeMcFxTarfEngine with its constructor defaults. -/
structure McEngineConfig where
  brownianBridge : Bool := false
  antithetic : Bool := false
  steps : Option ℕ := none
  stepsPerYear : Option ℕ := none
  samples : Option ℕ := none
  maxSamples : Option ℕ := none
  tolerance : Option ℚ := none
  seed : ℕ := 0
  generateProxy : Bool := false
deriving DecidableEq, Repr

/-- MakeMcFxTarfEngine::withSamples: rejected when a tolerance is already
set. -/
def withSamples (c : McEngineConfig) (n : ℕ) : Except EngineError McEngineConfig :=
  if c.tolerance ≠ none then Except.error EngineError.toleranceAlreadySet
  else Except.ok { c with samples := some n }

/-- MakeMcFxTarfEngine::withAbsoluteTolerance: rejected when a sample count
is already set or the RNG policy does not allow an error estimate. -/
def withAbsoluteTolerance (allowsErrorEstimate : Bool) (c : McEngineConfig) (t : ℚ) :
    Except EngineError McEngineConfig :=
  if c.samples ≠ none then Except.error EngineError.samplesAlreadySet
  else if !allowsErrorEstimate then Except.error EngineError.noErrorEstimate
  else Except.ok { c with tolerance := some t }

/-- The QL_REQUIRE sequence of the McFxTarfEngine constructor
(lines 442-453): time-step checks, positivity checks, discount curve. -/
def mcFxTarfEngineCtor (discountEmpty : Bool) (c : McEngineConfig) :
    Except EngineError Unit :=
  if c.steps = none ∧ c.stepsPerYear = none then Except.error EngineError.noTimeSteps
  else if c.steps ≠ none ∧ c.stepsPerYear ≠ none then
    Except.error EngineError.timeStepsOverspecified
  else if c.steps = some 0 then Except.error EngineError.zeroTimeSteps
  else if c.stepsPerYear = some 0 then Except.error EngineError.zeroTimeStepsPerYear
  else if discountEmpty then Except.error EngineError.noDiscountCurve
  else Except.ok ()

/-- MakeMcFxTarfEngine::operator shared_ptr PricingEngine (lines 957-967):
the two step checks of the conversion operator, then the engine
constructor. -/
def makeEngine (discountEmpty : Bool) (c : McEngineConfig) : Except EngineError Unit :=
  if c.steps = none ∧ c.stepsPerYear = none then Except.error EngineError.noTimeSteps
  else if c.steps ≠ none ∧ c.stepsPerYear ≠ none then
    Except.error EngineError.timeStepsOverspecified
  else mcFxTarfEngineCtor discountEmpty c

/-- The error cases claim C7 lists as exactly the configuration errors:
neither or both of steps and stepsPerYear, neither or both of samples and
tolerance, or a tolerance with an RNG policy without error estimates. -/
def configErrorClaimed (allowsErrorEstimate : Bool) (c : McEngineConfig) : Bool :=
  (decide (c.steps = none) && decide (c.stepsPerYear = none)) ||
    (decide (c.steps ≠ none) && decide (c.stepsPerYear ≠ none)) ||
    (decide (c.samples = none) && decide (c.tolerance = none)) ||
    (decide (c.samples ≠ none) && decide (c.tolerance ≠ none)) ||
    (decide (c.tolerance ≠ none) && !allowsErrorEstimate)

/-! The Monte Carlo run (claim C8).  The path generator, path pricer and
statistics accumulator (McSimulation, FxTarfPathPricer::operator(), class
Statistics) are repository code not included under src/. -/

/-- Lexicographic order on observations, total and antisymmetric; the data
sets of the engine are kept sorted under it. -/
def obsLe (p q : Obs) : Prop := p.1 < q.1 ∨ (p.1 = q.1 ∧ p.2 ≤ q.2)

instance : DecidableRel obsLe := fun p q => by
  unfold obsLe
  infer_instance

/-- Modelled from the spec: the Path Sampler (FxTarfPathPricer::operator(),
declared in fxtarf.hpp lines 402-424 but implemented outside src/) keeps
each per-bucket data set "sorted asc by spot values"; with the pair order
used by the engine's std::merge and std::upper_bound calls this is the
lexicographic order, under which the sorted data set is uniquely
determined by the multiset of observations. -/
def sortObs (l : List Obs) : List Obs := List.insertionSort obsLe l

/-- Observations of one path that fall into fixing index f and bucket b. -/
def obsFor (f b : ℕ) (obs : List (ℕ × ℕ × ℚ × ℚ)) : List Obs :=
  obs.filterMap (fun o => if o.1 = f ∧ o.2.1 = b then some (o.2.2.1, o.2.2.2) else none)

/-- Modelled from the spec: the Observation Store.  Each path contributes
one (spot, npv) observation per still-open fixing; the per-cell data set is
the sorted collection of the contributions of all paths. -/
def collectData (nFix nBuckets : ℕ) (obs : List (ℕ × ℕ × ℚ × ℚ)) :
    List (List (List Obs)) :=
  (List.range nFix).map (fun f =>
    (List.range nBuckets).map (fun b => sortObs (obsFor f b obs)))

/-- The outputs of one engine run that claim C8 compares: the statistics
accumulator state (count, sum, sum of squares — mean and error estimate
are functions of these), the value, the bucket limits and the full grid of
proxy functions. -/
structure McRunResult where
  sampleCount : ℕ
  sampleSum : ℚ
  sampleSquaredSum : ℚ
  value : ℚ
  bucketLimits : List ℚ
  proxyFunctions : Except EngineError (List (List QPF))

/-- Modelled from the spec: one full run of McFxTarfEngine::calculate with
proxy generation, as a function of the path list produced by the seeded
random source.  `pathPayoff` is the total discounted payoff of a path,
`pathObs` its per-open-fixing observations (fixing index, bucket index,
spot, npv); value = sample mean + unsettled amount npv (line 554-555). -/
def engineRun {P : Type} (isCall : Bool) (fuel nFix : ℕ)
    (target accumulatedAmount unsettledNpv : ℚ)
    (pathObs : P → List (ℕ × ℕ × ℚ × ℚ)) (pathPayoff : P → ℚ)
    (paths : List P) : McRunResult :=
  let payoffs := paths.map pathPayoff
  { sampleCount := payoffs.length
    sampleSum := payoffs.sum
    sampleSquaredSum := (payoffs.map (fun x => x ^ 2)).sum
    value := payoffs.sum / (payoffs.length : ℚ) + unsettledNpv
    bucketLimits := accBucketLimits nAccBuckets target accumulatedAmount
    proxyFunctions :=
      buildProxyFunctions isCall fuel
        (collectData nFix nAccBuckets (paths.flatMap pathObs)) }

/-- A 12-point put-side data set: three points at spots 0, 1, 2, one at
2.01 and eight at 10.  At the initial put cutoff fraction 0.2 the lower
segment holds 3 points, which meets Pmin = 3 but not
minDataSegment = 4. -/
def c4Data : List Obs :=
  [(0, 0), (1, 0), (2, 0), (201 / 100, 0)] ++ List.replicate 8 (10, 0)

/-- A group of 5 call observations clustered near the top of the spot
range: only one point falls below the cutoff, so regression set 1 is left
with a single point. -/
def c3GroupBad : List Obs :=
  [(1, 1), (10, 1), (101 / 10, 1), (102 / 10, 1), (103 / 10, 1)]

/-- A bucket row (5 accumulated-amount buckets) whose only data is the
starved group above: proxy building for this fixing index fails the
"too few points for regression in set 1" check. -/
def c3BucketsBad : List (List Obs) :=
  [c3GroupBad, [], [], [], []]

/-- Ten observations on the exact parabola npv = spot^2: both regression
segments recover a1 = a2 = 1, b = 0, c = 0 and proxy building succeeds. -/
def c3GroupGood : List Obs :=
  [(1, 1), (2, 4), (3, 9), (4, 16), (5, 25), (6, 36), (7, 49), (8, 64), (9, 81), (10, 100)]

/-- A bucket row holding the parabola data in its first bucket: proxy
building for this fixing index succeeds. -/
def c3BucketsGood : List (List Obs) :=
  [c3GroupGood, [], [], [], []]

/-- The proxy function the engine builds from `c3GroupGood`: both
segments regress to the exact parabola (a = 1, b = 0, c = 0), the cutoff
fraction ends at 0.8 * 0.99^3 after three shrinks, the lower cutoff and
core region come from the 5%/1%/99% percentiles. -/
def qpfGood : QPF :=
  { type := OptType.call, a1 := 1, b1 := 0, c1 := 0, a2 := 1, b2 := 0, c2 := 0
    cutoff := 9982691 / 1250000, lowerCutoff := 1, coreRegionMin := 1, coreRegionMax := 10
    flatExtrapolationType1 := some (-1), extrapolationPoint1 := some 0
    flatExtrapolationType2 := some (-1), extrapolationPoint2 := some 0 }

/-- Whether an engine step succeeded (no QL_REQUIRE fired). -/
def exceptOk {α : Type} (e : Except EngineError α) : Bool :=
  match e with
  | Except.ok _ => true
  | Except.error _ => false

/-- A constructor-accepted proxy function with a numerically vanishing
quadratic coefficient on segment 1 (a1 = 0, b1 = 1): the constructor
leaves flatExtrapolationType1 and extrapolationPoint1 unassigned. -/
def qpfLinearSeg : QPF :=
  { type := OptType.call, a1 := 0, b1 := 1, c1 := 0, a2 := 1, b2 := 0, c2 := 0
    cutoff := 1, lowerCutoff := 0, coreRegionMin := 0, coreRegionMax := 1
    flatExtrapolationType1 := none, extrapolationPoint1 := none
    flatExtrapolationType2 := some (-1), extrapolationPoint2 := some 0 }

/-- A constructor-accepted call proxy function whose lowerCutoff (= 1)
lies right of the segment-1 vertex (= 0): the linear extrapolation below
lowerCutoff has negative slope. -/
def qpfNonMonotone : QPF :=
  { type := OptType.call, a1 := -1, b1 := 0, c1 := 0, a2 := -1, b2 := 4, c2 := 0
    cutoff := 2, lowerCutoff := 1, coreRegionMin := 0, coreRegionMax := 2
    flatExtrapolationType1 := some 1, extrapolationPoint1 := some 0
    flatExtrapolationType2 := some 1, extrapolationPoint2 := some 2 }

/-- A constructor-accepted call proxy function satisfying the amended C2
hypotheses: both quadratic coefficients are -1 and lowerCutoff (= -1)
stays left of both vertices (0 and 2). -/
def qpfMonotoneWitness : QPF :=
  { type := OptType.call, a1 := -1, b1 := 0, c1 := 0, a2 := -1, b2 := 4, c2 := 0
    cutoff := 1, lowerCutoff := -1, coreRegionMin := 0, coreRegionMax := 1
    flatExtrapolationType1 := some 1, extrapolationPoint1 := some 0
    flatExtrapolationType2 := some 1, extrapolationPoint2 := some 2 }

/-! Theorems. -/

/-- close(0, 0.0) holds. -/
theorem close0_zero : close0 0 = true := by
  norm_num [close0, qlEpsilon]

/-- Monotonicity of the bucket limit entries in the bucket index. -/
theorem bucketEntry_mono (n i j : ℕ) (t a : ℚ) (hn : 0 < n) (ha : 0 ≤ a)
    (hat : a < t) (hij : i ≤ j) :
    (if i = 0 then (0 : ℚ) else (i : ℚ) / (n : ℚ) * (t - a) + a) ≤
      (if j = 0 then (0 : ℚ) else (j : ℚ) / (n : ℚ) * (t - a) + a) := by
  have hnpos : (0 : ℚ) < (n : ℚ) := by exact_mod_cast hn
  have hd : (0 : ℚ) < t - a := by linarith
  by_cases hj0 : j = 0
  · have hi0 : i = 0 := by omega
    simp [hi0, hj0]
  · simp only [if_neg hj0]
    by_cases hi0 : i = 0
    · simp only [if_pos hi0]
      have : (0 : ℚ) ≤ (j : ℚ) / (n : ℚ) * (t - a) := by positivity
      linarith
    · simp only [if_neg hi0]
      have hij2 : (i : ℚ) ≤ (j : ℚ) := by exact_mod_cast hij
      have h4 : (i : ℚ) / (n : ℚ) ≤ (j : ℚ) / (n : ℚ) := by
        apply div_le_div_of_nonneg_right hij2 (le_of_lt hnpos)
      have h5 := mul_le_mul_of_nonneg_right h4 (le_of_lt hd)
      linarith

/-- Range bounds of the bucket limit entries. -/
theorem bucketEntry_bounds (n i : ℕ) (t a : ℚ) (hn : 0 < n) (ha : 0 ≤ a)
    (hat : a < t) (hi : i < n) :
    0 ≤ (if i = 0 then (0 : ℚ) else (i : ℚ) / (n : ℚ) * (t - a) + a) ∧
      (if i = 0 then (0 : ℚ) else (i : ℚ) / (n : ℚ) * (t - a) + a) < t := by
  have hnpos : (0 : ℚ) < (n : ℚ) := by exact_mod_cast hn
  have hd : (0 : ℚ) < t - a := by linarith
  by_cases hi0 : i = 0
  · simp only [if_pos hi0]
    exact ⟨le_rfl, by linarith⟩
  · simp only [if_neg hi0]
    have h1 : (0 : ℚ) ≤ (i : ℚ) / (n : ℚ) * (t - a) := by positivity
    have h2 : (i : ℚ) / (n : ℚ) < 1 := by
      rw [div_lt_one hnpos]
      exact_mod_cast hi
    have h3 : (i : ℚ) / (n : ℚ) * (t - a) < 1 * (t - a) :=
      mul_lt_mul_of_pos_right h2 hd
    exact ⟨by linarith, by linarith⟩

/-- C9: the QuadraticProxyFunction constructor accepts its arguments if
and only if lowerCutoff <= cutoff for a call (lowerCutoff >= cutoff for a
put) and, for each segment whose quadratic coefficient is numerically
zero, the linear coefficient is strictly positive; in particular a
constant segment (a = 0, b = 0) — exactly what the engine's degenerate
fallback supplies — is rejected for both option types. -/
theorem c9_constructor_acceptance :
    (∀ (t : OptType) (cutoff a1 b1 c1 a2 b2 c2 L cm cM : ℚ),
      exceptOk (mkQuadraticProxyFunction t cutoff a1 b1 c1 a2 b2 c2 L cm cM) =
        (decide ((t = OptType.call ∧ L ≤ cutoff) ∨ (t = OptType.put ∧ cutoff ≤ L)) &&
          (!close0 a1 || decide (b1 > 0)) && (!close0 a2 || decide (b2 > 0)))) ∧
    (∀ (t : OptType) (cutoff v L cm cM : ℚ),
      exceptOk (mkQuadraticProxyFunction t cutoff 0 0 v 0 0 v L cm cM) = false) := by
  constructor
  · intro t cutoff a1 b1 c1 a2 b2 c2 L cm cM
    unfold mkQuadraticProxyFunction
    by_cases h1 : ((t = OptType.call ∧ L ≤ cutoff) ∨ (t = OptType.put ∧ L ≥ cutoff))
    · rw [if_neg (not_not_intro h1)]
      have hd : decide ((t = OptType.call ∧ L ≤ cutoff) ∨ (t = OptType.put ∧ cutoff ≤ L)) = true := by
        simpa [ge_iff_le] using h1
      by_cases ha1 : close0 a1 = true ∧ ¬ b1 > 0
      · rw [if_pos ha1]
        have e1 : (!close0 a1 || decide (b1 > 0)) = false := by
          obtain ⟨x, y⟩ := ha1
          simp [x, y]
        simp [exceptOk, e1]
      · rw [if_neg ha1]
        have e1 : (!close0 a1 || decide (b1 > 0)) = true := by
          push_neg at ha1
          by_cases hc : close0 a1 <;> simp_all
        by_cases ha2 : close0 a2 = true ∧ ¬ b2 > 0
        · rw [if_pos ha2]
          have e2 : (!close0 a2 || decide (b2 > 0)) = false := by
            obtain ⟨x, y⟩ := ha2
            simp [x, y]
          simp [exceptOk, e2]
        · rw [if_neg ha2]
          have e2 : (!close0 a2 || decide (b2 > 0)) = true := by
            push_neg at ha2
            by_cases hc : close0 a2 <;> simp_all
          simp [exceptOk, hd, e1, e2]
    · rw [if_pos h1]
      have hd : decide ((t = OptType.call ∧ L ≤ cutoff) ∨ (t = OptType.put ∧ cutoff ≤ L)) = false := by
        simpa [ge_iff_le] using h1
      simp [exceptOk, hd]
  · intro t cutoff v L cm cM
    unfold mkQuadraticProxyFunction
    have hz : close0 0 = true := by norm_num [close0, qlEpsilon]
    split
    · simp [exceptOk]
    · rw [if_pos ⟨hz, by norm_num⟩]
      simp [exceptOk]

/-- C10: the constructor accepts a call proxy with a1 = 0, b1 = 1 and
leaves flatExtrapolationType1 / extrapolationPoint1 unassigned, yet
operator() reads those fields on every query at or below the cutoff
(here spots 1/2 and -1): the evaluation dereferences never-assigned state
(undefined behavior in the C++), modelled as the read of a `none` field. -/
theorem c10_eval_reads_unassigned_fields :
    mkQuadraticProxyFunction OptType.call 1 0 1 0 1 0 0 0 0 1 = Except.ok qpfLinearSeg ∧
      evalQPF qpfLinearSeg (1 / 2) = none ∧ evalQPF qpfLinearSeg (-1) = none := by
  refine ⟨?_, ?_, ?_⟩
  · norm_num [mkQuadraticProxyFunction, close0, qlEpsilon, qpfLinearSeg]
  · norm_num [evalQPF, leftQuadVal, qpfLinearSeg]
  · norm_num [evalQPF, leftQuadVal, qpfLinearSeg]

/-- C1: on a degenerate merged group (all observations at spot 1, so
spotMax - spotMin is below QL_EPSILON) the engine computes the mean 3 of
the discounted payoffs 2, 3, 4 and passes a1 = b1 = 0 to the
QuadraticProxyFunction constructor, whose own check (b must be positive
when a is numerically zero) fires: the calculation aborts with an error
instead of returning the constant-mean proxy the spec promises. -/
theorem c1_degenerate_constant_rejected :
    processGroup true 3 [(1, 2), (1, 3), (1, 4)] 1 1 =
      Except.error (EngineError.bNotPositive 1 0) := by
  norm_num [processGroup, groupCutoff, shrinkLoopSrc, sideCond, belowMinimum, criticalSize,
    upperBoundSize, pairLt, cutoffOf, splitLe, splitGt, percentileSpot,
    relCutoff, minCutoffFraction, minLowerExtr, coreCutoff, ratToSize, qlEpsilon,
    mkQuadraticProxyFunction, close0, minRegPoints, qlMaxReal]

/-- C5 counterexample: for target 1, accumulatedAmount -1 (target >
accumulatedAmount as the claim requires) and 5 buckets, the computed
limits are [0, -3/5, -1/5, 1/5, 3/5], which are not non-decreasing: the
claim fails for negative accumulated amounts. -/
theorem c5_counterexample_negative_accumulated :
    (-1 : ℚ) < 1 ∧ ¬ (accBucketLimits 5 1 (-1)).Chain' (· ≤ ·) := by
  have hr : List.range 5 = [0, 1, 2, 3, 4] := rfl
  constructor
  · norm_num
  · simp only [accBucketLimits, hr, List.map_cons, List.map_nil, List.set]
    norm_num [List.chain'_cons]

/-- C5 (amended): for 0 <= accumulatedAmount < target and a positive
bucket count n the limits have exactly n entries, start at 0, are
non-decreasing and all lie in [0, target); and in the concrete instance
target = 1, accumulatedAmount = 0, n = 5 they equal exactly
[0, 1/5, 2/5, 3/5, 4/5]. -/
theorem c5_bucket_limits_amended :
    (∀ (n : ℕ) (t a : ℚ), 0 < n → 0 ≤ a → a < t →
      (accBucketLimits n t a).length = n ∧
      (accBucketLimits n t a).getD 0 0 = 0 ∧
      (accBucketLimits n t a).Chain' (· ≤ ·) ∧
      ∀ x ∈ accBucketLimits n t a, 0 ≤ x ∧ x < t) ∧
    accBucketLimits 5 1 0 = [0, 1 / 5, 2 / 5, 3 / 5, 4 / 5] := by
  constructor
  · intro n t a hn ha hat
    have hlen : (accBucketLimits n t a).length = n := by
      simp only [accBucketLimits, List.length_set, List.length_map, List.length_range]
    have hget : ∀ (i : ℕ) (h : i < (accBucketLimits n t a).length),
        (accBucketLimits n t a)[i] =
          if i = 0 then 0 else (i : ℚ) / (n : ℚ) * (t - a) + a := by
      intro i h
      by_cases h0 : i = 0
      · subst h0
        simp only [accBucketLimits, if_pos rfl]
        rw [List.getElem_set]
        simp
      · simp only [accBucketLimits, if_neg h0]
        rw [List.getElem_set]
        rw [if_neg (by omega : ¬ 0 = i)]
        rw [List.getElem_map, List.getElem_range]
    refine ⟨hlen, ?_, ?_, ?_⟩
    · have h0 : 0 < (accBucketLimits n t a).length := by rw [hlen]; exact hn
      rw [List.getD_eq_getElem _ _ h0]
      have := hget 0 h0
      simpa using this
    · rw [List.chain'_iff_pairwise]
      rw [List.pairwise_iff_getElem]
      intro i j hi hj hij
      rw [hget i hi, hget j hj]
      exact bucketEntry_mono n i j t a hn ha hat (Nat.le_of_lt hij)
    · intro x hx
      rw [List.mem_iff_getElem] at hx
      obtain ⟨i, hilen, hix⟩ := hx
      have hi : i < n := by rw [hlen] at hilen; exact hilen
      rw [← hix, hget i hilen]
      exact bucketEntry_bounds n i t a hn ha hat hi
  · have hr : List.range 5 = [0, 1, 2, 3, 4] := rfl
    simp only [accBucketLimits, hr, List.map_cons, List.map_nil, List.set]
    norm_num

/-- C5 witness: the amended statement applied at n = 5, target = 1,
accumulatedAmount = 0. -/
theorem c5_bucket_limits_amended_witness :
    (accBucketLimits 5 1 0).length = 5 ∧
      (accBucketLimits 5 1 0).getD 0 0 = 0 ∧
      (accBucketLimits 5 1 0).Chain' (· ≤ ·) ∧
      ∀ x ∈ accBucketLimits 5 1 0, 0 ≤ x ∧ x < 1 :=
  c5_bucket_limits_amended.1 5 1 0 (by norm_num) (by norm_num) (by norm_num)

/-- C7 counterexample: supplying steps = 5 and neither a sample count nor
a tolerance is one of the claim's error cases ("neither of sampleCount,
tolerance"), yet the build succeeds; conversely steps = 0 with a sample
count is not among the claim's error cases, yet construction reports
"timeSteps must be positive".  The claim's "exactly these cases" fails in
both directions. -/
theorem c7_counterexample_error_cases :
    configErrorClaimed true { steps := some 5 } = true ∧
      makeEngine false { steps := some 5 } = Except.ok () ∧
      configErrorClaimed true { steps := some 0, samples := some 100 } = false ∧
      makeEngine false { steps := some 0, samples := some 100 } =
        Except.error EngineError.zeroTimeSteps :=
  ⟨rfl, rfl, rfl, rfl⟩

/-- C7 (amended): construction/build errors exactly when neither or both
of steps and stepsPerYear are given, a given steps or stepsPerYear is
zero, or the discount curve is empty; withSamples errors exactly when a
tolerance is already set; withAbsoluteTolerance errors exactly when a
sample count is already set or the RNG policy has no error estimate.  The
absence of both a sample count and a tolerance is not checked at
construction/build time. -/
theorem c7_configuration_errors_amended :
    (∀ (d : Bool) (c : McEngineConfig),
      exceptOk (makeEngine d c) =
        (!(decide (c.steps = none) && decide (c.stepsPerYear = none)) &&
          !(decide (c.steps ≠ none) && decide (c.stepsPerYear ≠ none)) &&
          !decide (c.steps = some 0) && !decide (c.stepsPerYear = some 0) && !d)) ∧
    (∀ (c : McEngineConfig) (n : ℕ),
      exceptOk (withSamples c n) = !decide (c.tolerance ≠ none)) ∧
    (∀ (e : Bool) (c : McEngineConfig) (t : ℚ),
      exceptOk (withAbsoluteTolerance e c t) = (!decide (c.samples ≠ none) && e)) := by
  refine ⟨?_, ?_, ?_⟩
  · intro d c
    unfold makeEngine mcFxTarfEngineCtor
    by_cases h1 : c.steps = none ∧ c.stepsPerYear = none
    · simp [h1.1, h1.2, exceptOk]
    · rw [if_neg h1]
      by_cases h2 : c.steps ≠ none ∧ c.stepsPerYear ≠ none
      · rw [if_neg h1, if_pos h2]
        simp only [exceptOk]
        simp [h2.1, h2.2]
      · rw [if_neg h1, if_neg h2]
        by_cases h3 : c.steps = some 0
        · rw [if_pos h3]
          have hd : decide (c.steps = some 0) = true := by simp [h3]
          simp [exceptOk, hd]
          split <;> simp_all
        · rw [if_neg h3]
          by_cases h4 : c.stepsPerYear = some 0
          · rw [if_pos h4]
            have hd : decide (c.stepsPerYear = some 0) = true := by simp [h4]
            simp [exceptOk, hd]
            split <;> simp_all
          · rw [if_neg h4]
            cases d <;> simp [exceptOk, h1, h2, h3, h4] <;> tauto
  · intro c n
    unfold withSamples
    by_cases h : c.tolerance ≠ none
    · simp [h, exceptOk]
    · simp [h, exceptOk]
  · intro e c t
    unfold withAbsoluteTolerance
    by_cases h : c.samples ≠ none
    · simp [h, exceptOk]
    · cases e <;> simp [h, exceptOk]

/-- C4 counterexample: on `c4Data` (put side, so the critical segment is
the lower one) the code's loop shrinks the cutoff fraction — since the
critical size 3 is below minDataSegment = 4, one of the two disjunctively
combined minima — reaching 20/99, while the loop described by the claim
(shrink only while the size is below BOTH minima, with minDataSegment
recomputed from the current Rtmp) stops at once with 1/5: the claim's
loop condition does not match the code. -/
theorem c4_counterexample_loop_condition :
    shrinkLoopSrc false c4Data 0 10
        (ratToSize ((1 - (1 - relCutoff)) * minCutoffFraction * (c4Data.length : ℚ)) + 1)
        5 (1 - relCutoff) = 20 / 99 ∧
      shrinkLoopClaimed false c4Data 0 10 5 (1 - relCutoff) = 1 / 5 ∧
      (20 / 99 : ℚ) ≠ 1 / 5 := by
  refine ⟨?_, ?_, by norm_num⟩
  · norm_num [c4Data, shrinkLoopSrc, sideCond, belowMinimum, criticalSize, upperBoundSize,
      pairLt, cutoffOf, shrinkStep, relCutoff, minCutoffFraction, cutoffShrinkFactor,
      minRegPoints, ratToSize, Int.toNat_ofNat, show Int.toNat 3 = 3 from rfl,
      List.replicate, List.countP, List.countP.go]
  · norm_num [c4Data, shrinkLoopClaimed, sideCond, criticalSize, upperBoundSize,
      pairLt, cutoffOf, shrinkStep, relCutoff, minCutoffFraction, cutoffShrinkFactor,
      minRegPoints, minDataSegmentClaim, ratToSize, Int.toNat_ofNat,
      show Int.toNat 3 = 3 from rfl, List.replicate, List.countP, List.countP.go]

/-- When the side guard fails, the while-form loop returns its argument. -/
theorem shrinkLoopAmended_exit (isCall : Bool) (xTmp : List Obs) (spotMin spotMax : ℚ)
    (minData : ℕ) (fuel : ℕ) (r : ℚ) (h : sideCond isCall r = false) :
    shrinkLoopAmended isCall xTmp spotMin spotMax minData fuel r = r := by
  cases fuel
  · rfl
  · unfold shrinkLoopAmended
    simp [h]

/-- C4 (amended): the cutoff-shrinking loop iterates while Rtmp is on the
far side of 0.5 and the critical segment's size is below minDataSegment
OR below Pmin = 3, where minDataSegment is computed once from the initial
cutoff fraction (not recomputed); each iteration multiplies Rtmp by the
shrink factor (calls; divides for puts) and recomputes the cutoff, and it
stops as soon as both minima are met or Rtmp crosses 0.5.  Formally, the
faithful do-while embedding equals this while-loop restatement. -/
theorem c4_shrink_loop_amended (isCall : Bool) (xTmp : List Obs) (spotMin spotMax : ℚ)
    (minData : ℕ) :
    ∀ (fuel : ℕ) (r : ℚ),
      shrinkLoopSrc isCall xTmp spotMin spotMax minData fuel r =
        shrinkLoopAmended isCall xTmp spotMin spotMax minData fuel r := by
  intro fuel
  induction fuel with
  | zero => intro r; rfl
  | succ n ih =>
    intro r
    unfold shrinkLoopSrc shrinkLoopAmended
    by_cases h : (sideCond isCall r && belowMinimum isCall xTmp spotMin spotMax minData r) = true
    · rw [if_pos h, if_pos h]
      by_cases h2 : sideCond isCall (shrinkStep isCall r) = true
      · rw [if_pos h2]
        exact ih _
      · rw [if_neg h2]
        exact (shrinkLoopAmended_exit isCall xTmp spotMin spotMax minData n _
          (by simpa using h2)).symm
    · rw [if_neg h, if_neg h]

set_option maxHeartbeats 1000000 in
/-- The starved bucket row fails with "too few points for regression in
set 1 (1)". -/
theorem buildRow_c3Bad :
    buildRow true 5 c3BucketsBad = Except.error (EngineError.tooFewPoints 1 1) := by
  norm_num [buildRow, mergeBuckets, mergeGroupsAux, mergeObs, sumSizes, foldMergeAll,
    buildGroups, processGroup, groupCutoff, shrinkLoopSrc, sideCond, belowMinimum,
    criticalSize, upperBoundSize, pairLt, cutoffOf, shrinkStep, splitLe, splitGt,
    percentileSpot, groupSpotMin, groupSpotMax, relCutoff, minCutoffFraction,
    cutoffShrinkFactor, minLowerExtr, coreCutoff, ratToSize, qlEpsilon, qlMaxReal,
    minRegPoints, dFactor, c3BucketsBad, c3GroupBad, Int.toNat_ofNat,
    List.countP, List.countP.go,
    show |(93 : ℚ) / 10| = 93 / 10 from abs_of_nonneg (by norm_num)]

set_option maxHeartbeats 2000000 in
/-- The parabola bucket row builds five shared references to `qpfGood`. -/
theorem buildRow_c3Good :
    buildRow true 5 c3BucketsGood = Except.ok (List.replicate 5 qpfGood) := by
  norm_num [buildRow, mergeBuckets, mergeGroupsAux, mergeObs, sumSizes, foldMergeAll,
    buildGroups, processGroup, groupCutoff, shrinkLoopSrc, sideCond, belowMinimum,
    criticalSize, upperBoundSize, pairLt, cutoffOf, shrinkStep, splitLe, splitGt,
    percentileSpot, groupSpotMin, groupSpotMax, relCutoff, minCutoffFraction,
    cutoffShrinkFactor, minLowerExtr, coreCutoff, ratToSize, qlEpsilon, qlMaxReal,
    minRegPoints, dFactor, c3BucketsGood, c3GroupGood, Int.toNat_ofNat, lsCoeffs,
    mkQuadraticProxyFunction, close0, qpfGood, List.countP, List.countP.go,
    show |(9 : ℚ)| = 9 from abs_of_nonneg (by norm_num),
    show Int.toNat 9 = 9 from rfl]

/-- C3 counterexample: two engine inputs in which the starved group sits
at fixing index 0 and at fixing index 1 respectively produce the
identical error value "too few points for regression in set 1 (1)" —
the error carries the failing set and its size but nothing that could
identify the fixing index (the C++ message interpolates only
xTmp1.size()). -/
theorem c3_counterexample_error_lacks_fixing_index :
    buildProxyFunctions true 5 [c3BucketsBad, c3BucketsGood] =
        Except.error (EngineError.tooFewPoints 1 1) ∧
      buildProxyFunctions true 5 [c3BucketsGood, c3BucketsBad] =
        Except.error (EngineError.tooFewPoints 1 1) := by
  constructor
  · simp [buildProxyFunctions, buildRow_c3Bad]
  · simp [buildProxyFunctions, buildRow_c3Good, buildRow_c3Bad]

/-- C3 (amended): outside the degenerate constant case, whenever a
regression segment of a merged group holds fewer than 3 points the
calculation fails with a reported error — never silently proceeding —
and the error identifies the failing segment (set 1 or set 2) and its
point count; it does not carry the fixing index. -/
theorem c3_too_few_points_amended :
    ∀ (isCall : Bool) (fuel : ℕ) (xTmp : List Obs) (spotMin spotMax : ℚ),
      ¬ |spotMax - spotMin| < qlEpsilon →
      ((splitLe (groupCutoff isCall fuel xTmp spotMin spotMax) xTmp).length < minRegPoints →
        processGroup isCall fuel xTmp spotMin spotMax =
          Except.error (EngineError.tooFewPoints 1
            (splitLe (groupCutoff isCall fuel xTmp spotMin spotMax) xTmp).length)) ∧
      (¬ (splitLe (groupCutoff isCall fuel xTmp spotMin spotMax) xTmp).length < minRegPoints →
        (splitGt (groupCutoff isCall fuel xTmp spotMin spotMax) xTmp).length < minRegPoints →
        processGroup isCall fuel xTmp spotMin spotMax =
          Except.error (EngineError.tooFewPoints 2
            (splitGt (groupCutoff isCall fuel xTmp spotMin spotMax) xTmp).length)) := by
  intro isCall fuel xTmp spotMin spotMax hdeg
  constructor
  · intro h1
    simp only [processGroup]
    rw [if_neg hdeg, if_pos h1]
  · intro h1 h2
    simp only [processGroup]
    rw [if_neg hdeg, if_neg h1, if_pos h2]

/-- C3 witness: the amended statement applied to the starved group
(5 call points, one below the final cutoff). -/
theorem c3_too_few_points_amended_witness :
    processGroup true 5 c3GroupBad 1 (103 / 10) =
      Except.error (EngineError.tooFewPoints 1 1) := by
  have hdeg : ¬ |(103 / 10 : ℚ) - 1| < qlEpsilon := by
    rw [abs_of_nonneg (by norm_num : (0 : ℚ) ≤ 103 / 10 - 1)]
    norm_num [qlEpsilon]
  have hlen : (splitLe (groupCutoff true 5 c3GroupBad 1 (103 / 10)) c3GroupBad).length = 1 := by
    norm_num [groupCutoff, shrinkLoopSrc, sideCond, belowMinimum, criticalSize,
      upperBoundSize, pairLt, cutoffOf, shrinkStep, splitLe, relCutoff, minCutoffFraction,
      cutoffShrinkFactor, minRegPoints, ratToSize, Int.toNat_ofNat, c3GroupBad,
      List.countP, List.countP.go]
  have h := (c3_too_few_points_amended true 5 c3GroupBad 1 (103 / 10) hdeg).1
    (by rw [hlen]; norm_num [minRegPoints])
  rw [hlen] at h
  exact h

/-- std::merge output length is the sum of the input lengths. -/
theorem mergeObs_length : ∀ (l r : List Obs), (mergeObs l r).length = l.length + r.length := by
  intro l
  induction l with
  | nil => intro r; simp [mergeObs]
  | cons x xs ih =>
    intro r
    induction r with
    | nil => simp [mergeObs]
    | cons y ys ihy =>
      rw [mergeObs]
      split
      · simp only [List.length_cons, ihy]
        omega
      · simp only [List.length_cons, ih (y :: ys)]
        omega

/-- Folding std::merge over buckets adds up all their sizes. -/
theorem foldMergeAll_length :
    ∀ (bs : List (List Obs)) (acc : List Obs),
      (foldMergeAll acc bs).length = acc.length + sumSizes bs := by
  intro bs
  induction bs with
  | nil =>
    intro acc
    show acc.length = acc.length + sumSizes []
    simp [sumSizes]
  | cons b rest ih =>
    intro acc
    have h : foldMergeAll acc (b :: rest) = foldMergeAll (mergeObs acc b) rest := rfl
    rw [h, ih, mergeObs_length]
    simp only [sumSizes, List.map_cons, List.sum_cons]
    omega

/-- The merging loop preserves the total observation count and consumes
every bucket exactly once. -/
theorem mergeGroupsAux_sums (dF total : ℕ) :
    ∀ (bs : List (List Obs)) (acc : List Obs) (cnt : ℕ),
      ((mergeGroupsAux dF total acc cnt bs).map (fun g => g.1.length)).sum =
          acc.length + sumSizes bs ∧
        ((mergeGroupsAux dF total acc cnt bs).map (fun g => g.2)).sum = cnt + bs.length := by
  intro bs
  induction bs with
  | nil =>
    intro acc cnt
    simp [mergeGroupsAux, sumSizes]
  | cons b rest ih =>
    intro acc cnt
    rw [mergeGroupsAux]
    split
    · obtain ⟨ih1, ih2⟩ := ih (mergeObs acc b) (cnt + 1)
      rw [ih1, ih2, mergeObs_length]
      constructor
      · simp only [sumSizes, List.map_cons, List.sum_cons]
        omega
      · simp only [List.length_cons]
        omega
    · split
      · rename_i hrest
        subst hrest
        simp only [List.map_cons, List.map_nil, List.sum_cons, List.sum_nil]
        rw [mergeObs_length]
        constructor
        · simp only [sumSizes, List.map_cons, List.map_nil, List.sum_cons, List.sum_nil]
          omega
        · simp only [List.length_cons, List.length_nil]
          omega
      · split
        · simp only [List.map_cons, List.map_nil, List.sum_cons, List.sum_nil]
          rw [foldMergeAll_length, mergeObs_length]
          constructor
          · simp only [sumSizes, List.map_cons, List.sum_cons]
            omega
          · simp only [List.length_cons]
            omega
        · obtain ⟨ih1, ih2⟩ := ih [] 0
          simp only [List.map_cons, List.sum_cons, ih1, ih2, mergeObs_length]
          constructor
          · simp only [sumSizes, List.map_cons, List.sum_cons, List.length_nil]
            omega
          · simp only [List.length_cons]
            omega

/-- Every merged group consumes at least one bucket. -/
theorem mergeGroupsAux_counts_pos (dF total : ℕ) :
    ∀ (bs : List (List Obs)) (acc : List Obs) (cnt : ℕ), bs ≠ [] →
      ∀ g ∈ mergeGroupsAux dF total acc cnt bs, 1 ≤ g.2 := by
  intro bs
  induction bs with
  | nil => intro acc cnt h; exact absurd rfl h
  | cons b rest ih =>
    intro acc cnt _ g hg
    rw [mergeGroupsAux] at hg
    rcases Classical.em (dF * (mergeObs acc b).length < total) with h1 | h1
    · rw [if_pos h1] at hg
      cases rest with
      | nil =>
        rw [mergeGroupsAux] at hg
        simp only [List.mem_singleton] at hg
        subst hg
        simp
      | cons c rest2 =>
        exact ih (mergeObs acc b) (cnt + 1) (by simp) g hg
    · rw [if_neg h1] at hg
      rcases Classical.em (rest = []) with h2 | h2
      · rw [if_pos h2] at hg
        simp only [List.mem_singleton] at hg
        subst hg
        simp
      · rw [if_neg h2] at hg
        rcases Classical.em (dF * sumSizes rest < total) with h3 | h3
        · rw [if_pos h3] at hg
          simp only [List.mem_singleton] at hg
          subst hg
          simp only []
          omega
        · rw [if_neg h3] at hg
          simp only [List.mem_cons] at hg
          rcases hg with hg | hg
          · subst hg
            simp
          · exact ih [] 0 h2 g hg

/-- A successful row build replicates one function per merged group over
exactly the buckets the group consumed. -/
theorem buildGroups_replicate (isCall : Bool) (fuel : ℕ) :
    ∀ (gs : List (List Obs × ℕ)) (row : List QPF),
      buildGroups isCall fuel gs = Except.ok row →
      ∃ fns : List QPF, fns.length = gs.length ∧
        row = ((gs.zip fns).map (fun gf => List.replicate gf.1.2 gf.2)).flatten := by
  intro gs
  induction gs with
  | nil =>
    intro row h
    refine ⟨[], rfl, ?_⟩
    simp [buildGroups] at h
    simp [← h]
  | cons g rest ih =>
    intro row h
    rw [buildGroups] at h
    rcases hp : processGroup isCall fuel g.1 (groupSpotMin g.1) (groupSpotMax g.1) with e | fct
    · rw [hp] at h
      cases h
    · rw [hp] at h
      rcases hb : buildGroups isCall fuel rest with e2 | fs
      · rw [hb] at h
        cases h
      · rw [hb] at h
        obtain ⟨fns, hlen, hrow⟩ := ih fs hb
        cases h
        refine ⟨fct :: fns, by simp [hlen], ?_⟩
        simp only [List.zip_cons_cons, List.map_cons, List.flatten_cons]
        rw [← hrow]

/-- The parabola row's buckets merge into a single group consuming all
five buckets. -/
theorem mergeBuckets_c3Good :
    mergeBuckets dFactor c3BucketsGood = [(c3GroupGood, 5)] := by
  simp [mergeBuckets, mergeGroupsAux, mergeObs, foldMergeAll, sumSizes, dFactor,
    c3BucketsGood, c3GroupGood]

/-- C6: bucket merging partitions the bucket indices into contiguous
groups — the groups' data sizes sum to the total observation count, the
consumed bucket counts sum to the number of buckets and each group
consumes at least one bucket — and on a successful build every grid cell
of a group receives the same single proxy function (one function per
group, replicated over the group's bucket range). -/
theorem c6_merge_partition :
    (∀ (bs : List (List Obs)),
      ((mergeBuckets dFactor bs).map (fun g => g.1.length)).sum = sumSizes bs) ∧
    (∀ (bs : List (List Obs)),
      ((mergeBuckets dFactor bs).map (fun g => g.2)).sum = bs.length) ∧
    (∀ (bs : List (List Obs)), ∀ g ∈ mergeBuckets dFactor bs, 1 ≤ g.2) ∧
    (∀ (isCall : Bool) (fuel : ℕ) (bs : List (List Obs)) (row : List QPF),
      buildRow isCall fuel bs = Except.ok row →
      ∃ fns : List QPF, fns.length = (mergeBuckets dFactor bs).length ∧
        row = (((mergeBuckets dFactor bs).zip fns).map
          (fun gf => List.replicate gf.1.2 gf.2)).flatten) := by
  refine ⟨?_, ?_, ?_, ?_⟩
  · intro bs
    cases bs with
    | nil => simp [mergeBuckets, sumSizes]
    | cons b rest =>
      have h := (mergeGroupsAux_sums dFactor (sumSizes (b :: rest)) (b :: rest) [] 0).1
      simpa [mergeBuckets] using h
  · intro bs
    cases bs with
    | nil => simp [mergeBuckets]
    | cons b rest =>
      have h := (mergeGroupsAux_sums dFactor (sumSizes (b :: rest)) (b :: rest) [] 0).2
      simpa [mergeBuckets] using h
  · intro bs g hg
    cases bs with
    | nil => simp [mergeBuckets] at hg
    | cons b rest =>
      exact mergeGroupsAux_counts_pos dFactor (sumSizes (b :: rest)) (b :: rest) [] 0
        (by simp) g (by simpa [mergeBuckets] using hg)
  · intro isCall fuel bs row h
    exact buildGroups_replicate isCall fuel (mergeBuckets dFactor bs) row h

/-- C6 witness: the partition facts and the function sharing on the
parabola row, whose five buckets merge into one group with one shared
function. -/
theorem c6_merge_partition_witness :
    ((mergeBuckets dFactor c3BucketsGood).map (fun g => g.1.length)).sum =
        sumSizes c3BucketsGood ∧
      ((mergeBuckets dFactor c3BucketsGood).map (fun g => g.2)).sum = c3BucketsGood.length ∧
      (1 : ℕ) ≤ (c3GroupGood, 5).2 ∧
      ∃ fns : List QPF, fns.length = (mergeBuckets dFactor c3BucketsGood).length ∧
        List.replicate 5 qpfGood = (((mergeBuckets dFactor c3BucketsGood).zip fns).map
          (fun gf => List.replicate gf.1.2 gf.2)).flatten := by
  refine ⟨c6_merge_partition.1 c3BucketsGood, c6_merge_partition.2.1 c3BucketsGood, ?_, ?_⟩
  · exact c6_merge_partition.2.2.1 c3BucketsGood (c3GroupGood, 5)
      (by rw [mergeBuckets_c3Good]; simp)
  · exact c6_merge_partition.2.2.2 true 5 c3BucketsGood (List.replicate 5 qpfGood)
      buildRow_c3Good

instance : IsTotal Obs obsLe := by
  constructor
  intro a b
  unfold obsLe
  rcases lt_trichotomy a.1 b.1 with h | h | h
  · exact Or.inl (Or.inl h)
  · rcases le_total a.2 b.2 with h2 | h2
    · exact Or.inl (Or.inr ⟨h, h2⟩)
    · exact Or.inr (Or.inr ⟨h.symm, h2⟩)
  · exact Or.inr (Or.inl h)

instance : IsTrans Obs obsLe := by
  constructor
  intro a b c hab hbc
  unfold obsLe at *
  rcases hab with h | ⟨he, h2⟩
  · rcases hbc with h3 | ⟨he3, h4⟩
    · exact Or.inl (h.trans h3)
    · exact Or.inl (he3 ▸ h)
  · rcases hbc with h3 | ⟨he3, h4⟩
    · exact Or.inl (he ▸ h3)
    · exact Or.inr ⟨he.trans he3, h2.trans h4⟩

instance : IsAntisymm Obs obsLe := by
  constructor
  intro a b hab hba
  unfold obsLe at *
  rcases hab with h | ⟨he, h2⟩
  · rcases hba with h3 | ⟨he3, h4⟩
    · exact absurd (h.trans h3) (lt_irrefl _)
    · exact absurd h (by rw [he3]; exact lt_irrefl _)
  · rcases hba with h3 | ⟨he3, h4⟩
    · exact absurd h3 (by rw [he]; exact lt_irrefl _)
    · exact Prod.ext he (le_antisymm h2 h4)

/-- A sorted data set is determined by the multiset of its observations:
the lexicographic order is total and antisymmetric, so any two sorted
permutations coincide. -/
theorem sortObs_eq_of_perm (l1 l2 : List Obs) (h : l1.Perm l2) : sortObs l1 = sortObs l2 :=
  List.eq_of_perm_of_sorted
    ((List.perm_insertionSort obsLe l1).trans (h.trans (List.perm_insertionSort obsLe l2).symm))
    (List.sorted_insertionSort obsLe l1) (List.sorted_insertionSort obsLe l2)

/-- The observation store is invariant under a permutation of the
incoming observation stream. -/
theorem collectData_eq_of_perm (nFix nB : ℕ) (o1 o2 : List (ℕ × ℕ × ℚ × ℚ))
    (h : o1.Perm o2) : collectData nFix nB o1 = collectData nFix nB o2 := by
  unfold collectData
  apply List.map_congr_left
  intro f _
  apply List.map_congr_left
  intro b _
  exact sortObs_eq_of_perm _ _ (h.filterMap _)

/-- C8: the engine run is a pure function of its configuration and path
stream, and its reduction is invariant to the order in which paths are
processed: two runs over path lists that are permutations of each other
(in particular, two runs over the identical seeded path stream) produce
identical statistics accumulator state (count, sum, sum of squares —
hence bit-identical value and error estimate in the exact-arithmetic
model), identical bucket limits and an identical proxy surface in every
grid cell. -/
theorem c8_run_order_invariant {P : Type} (isCall : Bool) (fuel nFix : ℕ)
    (target acc unsettled : ℚ) (pathObs : P → List (ℕ × ℕ × ℚ × ℚ)) (pathPayoff : P → ℚ)
    (paths1 paths2 : List P) (h : paths1.Perm paths2) :
    engineRun isCall fuel nFix target acc unsettled pathObs pathPayoff paths1 =
      engineRun isCall fuel nFix target acc unsettled pathObs pathPayoff paths2 := by
  have hp : (paths1.map pathPayoff).Perm (paths2.map pathPayoff) := h.map pathPayoff
  have hobs : (paths1.flatMap pathObs).Perm (paths2.flatMap pathObs) :=
    h.flatMap_right pathObs
  simp only [engineRun, McRunResult.mk.injEq]
  refine ⟨hp.length_eq, hp.sum_eq, (hp.map (fun x => x ^ 2)).sum_eq, ?_, trivial, ?_⟩
  · rw [hp.sum_eq, hp.length_eq]
  · rw [collectData_eq_of_perm nFix nAccBuckets _ _ hobs]

/-- C8 witness: two runs over the same two paths in either order give the
identical result. -/
theorem c8_run_order_invariant_witness :
    engineRun true 1 1 1 0 0 (fun p : ℕ => [(0, 0, (p : ℚ), 1)]) (fun p : ℕ => (p : ℚ))
        [0, 1] =
      engineRun true 1 1 1 0 0 (fun p : ℕ => [(0, 0, (p : ℚ), 1)]) (fun p : ℕ => (p : ℚ))
        [1, 0] :=
  c8_run_order_invariant true 1 1 1 0 0 _ _ [0, 1] [1, 0] (by decide)

/-- A coefficient that is not numerically zero is nonzero. -/
theorem close0_false_ne (a : ℚ) (h : close0 a = false) : a ≠ 0 := by
  intro h0
  subst h0
  rw [close0_zero] at h
  cases h

/-- A downward parabola is non-decreasing left of its vertex. -/
theorem quadMono_left (a b c x1 x2 : ℚ) (ha : a < 0) (h12 : x1 ≤ x2)
    (h2 : x2 ≤ -b / (2 * a)) : quadAt a b c x1 ≤ quadAt a b c x2 := by
  have h2a : 2 * a < 0 := by linarith
  have hkey : -b ≤ x2 * (2 * a) := (le_div_iff_of_neg h2a).mp h2
  unfold quadAt
  nlinarith [mul_nonneg (sub_nonneg.mpr h12) (by nlinarith : 0 ≤ a * (x1 + x2) + b)]

/-- An upward parabola is non-decreasing right of its vertex. -/
theorem quadMono_right (a b c x1 x2 : ℚ) (ha : 0 < a) (h1 : -b / (2 * a) ≤ x1)
    (h12 : x1 ≤ x2) : quadAt a b c x1 ≤ quadAt a b c x2 := by
  have h2a : 0 < 2 * a := by linarith
  have hkey : -b ≤ x1 * (2 * a) := by
    have := (div_le_iff₀ h2a).mp h1
    linarith
  unfold quadAt
  nlinarith [mul_nonneg (sub_nonneg.mpr h12) (by nlinarith : 0 ≤ a * (x1 + x2) + b)]

/-- An upward parabola is non-increasing left of its vertex. -/
theorem quadAnti_left (a b c x1 x2 : ℚ) (ha : 0 < a) (h12 : x1 ≤ x2)
    (h2 : x2 ≤ -b / (2 * a)) : quadAt a b c x2 ≤ quadAt a b c x1 := by
  have h2a : 0 < 2 * a := by linarith
  have hkey : x2 * (2 * a) ≤ -b := by
    have := (le_div_iff₀ h2a).mp h2
    linarith
  unfold quadAt
  nlinarith [mul_nonneg (sub_nonneg.mpr h12) (by nlinarith : 0 ≤ -(a * (x1 + x2) + b))]

/-- A downward parabola is non-increasing right of its vertex. -/
theorem quadAnti_right (a b c x1 x2 : ℚ) (ha : a < 0) (h1 : -b / (2 * a) ≤ x1)
    (h12 : x1 ≤ x2) : quadAt a b c x2 ≤ quadAt a b c x1 := by
  have h2a : 2 * a < 0 := by linarith
  have hkey : x1 * (2 * a) ≤ -b := (div_le_iff_of_neg h2a).mp h1
  unfold quadAt
  nlinarith [mul_nonneg (sub_nonneg.mpr h12) (by nlinarith : 0 ≤ -(a * (x1 + x2) + b))]

/-- The clamp with direction +1 is min. -/
theorem clampTo_one (e x : ℚ) : clampTo 1 e x = min e x := by
  simp [clampTo]

/-- The clamp with direction -1 is max. -/
theorem clampTo_negOne (e x : ℚ) : clampTo (-1) e x = max e x := by
  unfold clampTo
  push_cast
  rw [show (-1 : ℚ) * e = -e by ring, show (-1 : ℚ) * x = -x by ring, min_neg_neg]
  ring

/-- The linear extrapolation agrees with the quadratic at its anchor. -/
theorem linAt_at_anchor (a b c l : ℚ) : linAt a b c l l = quadAt a b c l := by
  unfold linAt quadAt
  ring

/-- The linear extrapolation is monotone when its slope is nonnegative. -/
theorem linAt_mono (a b c l x1 x2 : ℚ) (hs : 0 ≤ 2 * a * l + b) (h : x1 ≤ x2) :
    linAt a b c l x1 ≤ linAt a b c l x2 := by
  unfold linAt
  nlinarith [mul_le_mul_of_nonneg_left h hs]

/-- The linear extrapolation is antitone when its slope is nonpositive. -/
theorem linAt_anti (a b c l x1 x2 : ℚ) (hs : 2 * a * l + b ≤ 0) (h : x1 ≤ x2) :
    linAt a b c l x2 ≤ linAt a b c l x1 := by
  unfold linAt
  nlinarith [mul_le_mul_of_nonpos_left h hs]

/-- Left of the vertex of a downward parabola the tangent slope is nonnegative. -/
theorem slope_nonneg (a b l : ℚ) (ha : a < 0) (hl : l ≤ -b / (2 * a)) :
    0 ≤ 2 * a * l + b := by
  have h2a : 2 * a < 0 := by linarith
  have := (le_div_iff_of_neg h2a).mp hl
  nlinarith

/-- Right of the vertex of a downward parabola the tangent slope is nonpositive. -/
theorem slope_nonpos (a b l : ℚ) (ha : a < 0) (hl : -b / (2 * a) ≤ l) :
    2 * a * l + b ≤ 0 := by
  have h2a : 2 * a < 0 := by linarith
  have := (div_le_iff_of_neg h2a).mp hl
  nlinarith
/-- Closed form of operator() when all four extrapolation fields are
assigned: the nested branches of the source collapse into one value. -/
theorem evalQPF_some (t : OptType) (a1 b1 c1 a2 b2 c2 cutoff L cm cM : ℚ)
    (ft1 ft2 : ℤ) (e1 e2 : ℚ) (x : ℚ) :
    evalQPF { type := t, a1 := a1, b1 := b1, c1 := c1, a2 := a2, b2 := b2, c2 := c2
              cutoff := cutoff, lowerCutoff := L, coreRegionMin := cm, coreRegionMax := cM
              flatExtrapolationType1 := some ft1, extrapolationPoint1 := some e1
              flatExtrapolationType2 := some ft2, extrapolationPoint2 := some e2 } x =
      some (if x ≤ cutoff then
              (if x ≤ L ∧ t = OptType.call ∧ ft1 = 1 then linAt a1 b1 c1 L x
               else if t = OptType.put then
                 max (quadAt a2 b2 c2 (clampTo ft2 e2 cutoff)) (quadAt a1 b1 c1 (clampTo ft1 e1 x))
               else quadAt a1 b1 c1 (clampTo ft1 e1 x))
            else
              (if L ≤ x ∧ t = OptType.put ∧ ft2 = -1 then linAt a2 b2 c2 L x
               else if t = OptType.call then
                 max (quadAt a1 b1 c1 (clampTo ft1 e1 cutoff)) (quadAt a2 b2 c2 (clampTo ft2 e2 x))
               else quadAt a2 b2 c2 (clampTo ft2 e2 x))) := by
  unfold evalQPF leftQuadVal rightQuadVal
  by_cases hc : x ≤ cutoff
  · rw [if_pos hc, if_pos hc]
    by_cases hl : x ≤ L
    · by_cases ht : t = OptType.call
      · simp only [hl, ht, true_and, and_true, if_pos rfl]
        by_cases hf : ft1 = 1
        · simp [hf]
        · simp only [hf, if_neg, ite_false]
          simp [ht]
      · have : ¬ (x ≤ L ∧ t = OptType.call) := by tauto
        simp only [this, ite_false]
        have h2 : ¬ (x ≤ L ∧ t = OptType.call ∧ ft1 = 1) := by tauto
        simp only [h2, ite_false]
        cases t with
        | call => exact absurd rfl ht
        | put => simp
    · have : ¬ (x ≤ L ∧ t = OptType.call) := by tauto
      simp only [this, ite_false]
      have h2 : ¬ (x ≤ L ∧ t = OptType.call ∧ ft1 = 1) := by tauto
      simp only [h2, ite_false]
      cases t with
      | call => simp
      | put => simp
  · rw [if_neg hc, if_neg hc]
    by_cases hl : L ≤ x
    · by_cases ht : t = OptType.put
      · simp only [hl, ht, true_and, and_true, if_pos rfl]
        by_cases hf : ft2 = -1
        · simp [hf]
        · simp only [hf, ite_false]
          simp [ht]
      · have : ¬ (L ≤ x ∧ t = OptType.put) := by tauto
        simp only [this, ite_false]
        have h2 : ¬ (L ≤ x ∧ t = OptType.put ∧ ft2 = -1) := by tauto
        simp only [h2, ite_false]
        cases t with
        | put => exact absurd rfl ht
        | call => simp
    · have : ¬ (L ≤ x ∧ t = OptType.put) := by tauto
      simp only [this, ite_false]
      have h2 : ¬ (L ≤ x ∧ t = OptType.put ∧ ft2 = -1) := by tauto
      simp only [h2, ite_false]
      cases t with
      | call => simp
      | put => simp

/-- With the call-side direction flag, clamp-then-evaluate is monotone. -/
theorem clampQuad_mono_call (a b c e x1 x2 : ℚ) (ha : a ≠ 0)
    (he : e = -b / (2 * a)) (h12 : x1 ≤ x2) :
    quadAt a b c (clampTo (if a > 0 then -1 else 1) e x1) ≤
      quadAt a b c (clampTo (if a > 0 then -1 else 1) e x2) := by
  rcases ha.lt_or_lt with hneg | hpos
  · rw [if_neg (not_lt.mpr hneg.le), clampTo_one, clampTo_one]
    exact quadMono_left _ _ _ _ _ hneg (min_le_min le_rfl h12) (he ▸ min_le_left _ _)
  · rw [if_pos hpos, clampTo_negOne, clampTo_negOne]
    exact quadMono_right _ _ _ _ _ hpos (he ▸ le_max_left _ _) (max_le_max le_rfl h12)

/-- With the put-side direction flag, clamp-then-evaluate is antitone. -/
theorem clampQuad_anti_put (a b c e x1 x2 : ℚ) (ha : a ≠ 0)
    (he : e = -b / (2 * a)) (h12 : x1 ≤ x2) :
    quadAt a b c (clampTo (if a > 0 then 1 else -1) e x2) ≤
      quadAt a b c (clampTo (if a > 0 then 1 else -1) e x1) := by
  rcases ha.lt_or_lt with hneg | hpos
  · rw [if_neg (not_lt.mpr hneg.le), clampTo_negOne, clampTo_negOne]
    exact quadAnti_right _ _ _ _ _ hneg (he ▸ le_max_left _ _) (max_le_max le_rfl h12)
  · rw [if_pos hpos, clampTo_one, clampTo_one]
    exact quadAnti_left _ _ _ _ _ hpos (min_le_min le_rfl h12) (he ▸ min_le_left _ _)

/-- The call lower-segment value (linear extrapolation stitched to the
clamped quadratic) is monotone when lowerCutoff stays left of the vertex. -/
theorem call_left_mono (a1 b1 c1 L : ℚ) (ft1 : ℤ) (e1 : ℚ) (ha1 : a1 ≠ 0)
    (hft1 : ft1 = if a1 > 0 then -1 else 1) (he1 : e1 = -b1 / (2 * a1))
    (hv : a1 < 0 → L ≤ e1) (x1 x2 : ℚ) (h12 : x1 ≤ x2) :
    (if x1 ≤ L ∧ ft1 = 1 then linAt a1 b1 c1 L x1 else quadAt a1 b1 c1 (clampTo ft1 e1 x1)) ≤
      (if x2 ≤ L ∧ ft1 = 1 then linAt a1 b1 c1 L x2
        else quadAt a1 b1 c1 (clampTo ft1 e1 x2)) := by
  rcases ha1.lt_or_lt with hneg | hpos
  · have hft : ft1 = 1 := by rw [hft1, if_neg (not_lt.mpr hneg.le)]
    subst hft
    have hvL : L ≤ e1 := hv hneg
    have hslope : 0 ≤ 2 * a1 * L + b1 := slope_nonneg a1 b1 L hneg (he1 ▸ hvL)
    rw [clampTo_one, clampTo_one]
    by_cases h1 : x1 ≤ L
    · by_cases h2 : x2 ≤ L
      · rw [if_pos ⟨h1, rfl⟩, if_pos ⟨h2, rfl⟩]
        exact linAt_mono _ _ _ _ _ _ hslope h12
      · rw [if_pos ⟨h1, rfl⟩, if_neg (by tauto)]
        have hLx2 : L ≤ x2 := le_of_not_le h2
        calc linAt a1 b1 c1 L x1 ≤ linAt a1 b1 c1 L L := linAt_mono _ _ _ _ _ _ hslope h1
          _ = quadAt a1 b1 c1 L := linAt_at_anchor a1 b1 c1 L
          _ ≤ quadAt a1 b1 c1 (min e1 x2) :=
            quadMono_left _ _ _ _ _ hneg (le_min hvL hLx2) (he1 ▸ min_le_left _ _)
    · have h2 : ¬ x2 ≤ L := fun h => h1 (h12.trans h)
      rw [if_neg (by tauto), if_neg (by tauto)]
      exact quadMono_left _ _ _ _ _ hneg (min_le_min le_rfl h12) (he1 ▸ min_le_left _ _)
  · have hft : ft1 = -1 := by rw [hft1, if_pos hpos]
    subst hft
    rw [if_neg (by simp), if_neg (by simp)]
    rw [clampTo_negOne, clampTo_negOne]
    exact quadMono_right _ _ _ _ _ hpos (he1 ▸ le_max_left _ _) (max_le_max le_rfl h12)

/-- The call lower-segment value never exceeds the clamped quadratic at
the cutoff (the value the monotonicity patch uses). -/
theorem call_left_le_stitch (a1 b1 c1 L cutoff : ℚ) (ft1 : ℤ) (e1 : ℚ) (ha1 : a1 ≠ 0)
    (hft1 : ft1 = if a1 > 0 then -1 else 1) (he1 : e1 = -b1 / (2 * a1))
    (hv : a1 < 0 → L ≤ e1) (hL : L ≤ cutoff) (x : ℚ) (hx : x ≤ cutoff) :
    (if x ≤ L ∧ ft1 = 1 then linAt a1 b1 c1 L x else quadAt a1 b1 c1 (clampTo ft1 e1 x)) ≤
      quadAt a1 b1 c1 (clampTo ft1 e1 cutoff) := by
  have h := call_left_mono a1 b1 c1 L ft1 e1 ha1 hft1 he1 hv x cutoff hx
  by_cases hcl : cutoff ≤ L ∧ ft1 = 1
  · have hneg : a1 < 0 := by
      rcases ha1.lt_or_lt with hn | hp
      · exact hn
      · rw [hft1, if_pos hp] at hcl
        cases hcl.2
    have hLc : L = cutoff := le_antisymm hL hcl.1
    have hvL : L ≤ e1 := hv hneg
    rw [if_pos hcl] at h
    have hgoal : quadAt a1 b1 c1 (clampTo ft1 e1 cutoff) = linAt a1 b1 c1 L cutoff := by
      rw [hcl.2, clampTo_one, ← hLc, min_eq_right hvL, linAt_at_anchor]
    rw [hgoal]
    exact h
  · rw [if_neg hcl] at h
    exact h

/-- The put upper-segment value is antitone when lowerCutoff stays right
of the vertex. -/
theorem put_right_anti (a2 b2 c2 L : ℚ) (ft2 : ℤ) (e2 : ℚ) (ha2 : a2 ≠ 0)
    (hft2 : ft2 = if a2 > 0 then 1 else -1) (he2 : e2 = -b2 / (2 * a2))
    (hv : a2 < 0 → e2 ≤ L) (x1 x2 : ℚ) (h12 : x1 ≤ x2) :
    (if L ≤ x2 ∧ ft2 = -1 then linAt a2 b2 c2 L x2 else quadAt a2 b2 c2 (clampTo ft2 e2 x2)) ≤
      (if L ≤ x1 ∧ ft2 = -1 then linAt a2 b2 c2 L x1
        else quadAt a2 b2 c2 (clampTo ft2 e2 x1)) := by
  rcases ha2.lt_or_lt with hneg | hpos
  · have hft : ft2 = -1 := by rw [hft2, if_neg (not_lt.mpr hneg.le)]
    subst hft
    have hvL : e2 ≤ L := hv hneg
    have hslope : 2 * a2 * L + b2 ≤ 0 := slope_nonpos a2 b2 L hneg (he2 ▸ hvL)
    rw [clampTo_negOne, clampTo_negOne]
    by_cases h2 : L ≤ x2
    · by_cases h1 : L ≤ x1
      · rw [if_pos ⟨h2, rfl⟩, if_pos ⟨h1, rfl⟩]
        exact linAt_anti _ _ _ _ _ _ hslope h12
      · rw [if_pos ⟨h2, rfl⟩, if_neg (by tauto)]
        have hx1L : x1 ≤ L := le_of_not_le h1
        calc linAt a2 b2 c2 L x2 ≤ linAt a2 b2 c2 L L := linAt_anti _ _ _ _ _ _ hslope h2
          _ = quadAt a2 b2 c2 L := linAt_at_anchor a2 b2 c2 L
          _ ≤ quadAt a2 b2 c2 (max e2 x1) :=
            quadAnti_right _ _ _ _ _ hneg (he2 ▸ le_max_left _ _) (max_le hvL hx1L)
    · have h1 : ¬ L ≤ x1 := fun h => h2 (h.trans h12)
      rw [if_neg (by tauto), if_neg (by tauto)]
      exact quadAnti_right _ _ _ _ _ hneg (he2 ▸ le_max_left _ _) (max_le_max le_rfl h12)
  · have hft : ft2 = 1 := by rw [hft2, if_pos hpos]
    subst hft
    rw [if_neg (by simp), if_neg (by simp)]
    rw [clampTo_one, clampTo_one]
    exact quadAnti_left _ _ _ _ _ hpos (min_le_min le_rfl h12) (he2 ▸ min_le_left _ _)

/-- The put upper-segment value never exceeds the clamped quadratic at
the cutoff. -/
theorem put_right_le_stitch (a2 b2 c2 L cutoff : ℚ) (ft2 : ℤ) (e2 : ℚ) (ha2 : a2 ≠ 0)
    (hft2 : ft2 = if a2 > 0 then 1 else -1) (he2 : e2 = -b2 / (2 * a2))
    (hv : a2 < 0 → e2 ≤ L) (hL : cutoff ≤ L) (x : ℚ) (hx : cutoff ≤ x) :
    (if L ≤ x ∧ ft2 = -1 then linAt a2 b2 c2 L x else quadAt a2 b2 c2 (clampTo ft2 e2 x)) ≤
      quadAt a2 b2 c2 (clampTo ft2 e2 cutoff) := by
  have h := put_right_anti a2 b2 c2 L ft2 e2 ha2 hft2 he2 hv cutoff x hx
  by_cases hcl : L ≤ cutoff ∧ ft2 = -1
  · have hneg : a2 < 0 := by
      rcases ha2.lt_or_lt with hn | hp
      · exact hn
      · rw [hft2, if_pos hp] at hcl
        cases hcl.2
    have hLc : L = cutoff := le_antisymm hcl.1 hL
    have hvL : e2 ≤ L := hv hneg
    rw [if_pos hcl] at h
    have hgoal : quadAt a2 b2 c2 (clampTo ft2 e2 cutoff) = linAt a2 b2 c2 L cutoff := by
      rw [hcl.2, clampTo_negOne, ← hLc, max_eq_right hvL, linAt_at_anchor]
    rw [hgoal]
    exact h
  · rw [if_neg hcl] at h
    exact h

/-- The assembled call evaluation (both segments and the monotonicity
patch) is monotone non-decreasing. -/
theorem call_val_mono (a1 b1 c1 a2 b2 c2 cutoff L : ℚ) (ft1 ft2 : ℤ) (e1 e2 : ℚ)
    (ha1 : a1 ≠ 0) (ha2 : a2 ≠ 0)
    (hft1 : ft1 = if a1 > 0 then -1 else 1) (hft2 : ft2 = if a2 > 0 then -1 else 1)
    (he1 : e1 = -b1 / (2 * a1)) (he2 : e2 = -b2 / (2 * a2))
    (hL : L ≤ cutoff) (hv : a1 < 0 → L ≤ e1) (x1 x2 : ℚ) (h12 : x1 ≤ x2) :
    (if x1 ≤ cutoff then
        (if x1 ≤ L ∧ ft1 = 1 then linAt a1 b1 c1 L x1
          else quadAt a1 b1 c1 (clampTo ft1 e1 x1))
      else max (quadAt a1 b1 c1 (clampTo ft1 e1 cutoff))
        (quadAt a2 b2 c2 (clampTo ft2 e2 x1))) ≤
      (if x2 ≤ cutoff then
        (if x2 ≤ L ∧ ft1 = 1 then linAt a1 b1 c1 L x2
          else quadAt a1 b1 c1 (clampTo ft1 e1 x2))
      else max (quadAt a1 b1 c1 (clampTo ft1 e1 cutoff))
        (quadAt a2 b2 c2 (clampTo ft2 e2 x2))) := by
  by_cases hc1 : x1 ≤ cutoff
  · by_cases hc2 : x2 ≤ cutoff
    · rw [if_pos hc1, if_pos hc2]
      exact call_left_mono a1 b1 c1 L ft1 e1 ha1 hft1 he1 hv x1 x2 h12
    · rw [if_pos hc1, if_neg hc2]
      exact le_trans (call_left_le_stitch a1 b1 c1 L cutoff ft1 e1 ha1 hft1 he1 hv hL x1 hc1)
        (le_max_left _ _)
  · have hc2 : ¬ x2 ≤ cutoff := fun h => hc1 (h12.trans h)
    rw [if_neg hc1, if_neg hc2]
    refine max_le_max le_rfl ?_
    rw [hft2]
    exact clampQuad_mono_call a2 b2 c2 e2 x1 x2 ha2 he2 h12

/-- The assembled put evaluation is monotone non-increasing. -/
theorem put_val_anti (a1 b1 c1 a2 b2 c2 cutoff L : ℚ) (ft1 ft2 : ℤ) (e1 e2 : ℚ)
    (ha1 : a1 ≠ 0) (ha2 : a2 ≠ 0)
    (hft1 : ft1 = if a1 > 0 then 1 else -1) (hft2 : ft2 = if a2 > 0 then 1 else -1)
    (he1 : e1 = -b1 / (2 * a1)) (he2 : e2 = -b2 / (2 * a2))
    (hL : cutoff ≤ L) (hv : a2 < 0 → e2 ≤ L) (x1 x2 : ℚ) (h12 : x1 ≤ x2) :
    (if x2 ≤ cutoff then
        max (quadAt a2 b2 c2 (clampTo ft2 e2 cutoff)) (quadAt a1 b1 c1 (clampTo ft1 e1 x2))
      else
        (if L ≤ x2 ∧ ft2 = -1 then linAt a2 b2 c2 L x2
          else quadAt a2 b2 c2 (clampTo ft2 e2 x2))) ≤
      (if x1 ≤ cutoff then
        max (quadAt a2 b2 c2 (clampTo ft2 e2 cutoff)) (quadAt a1 b1 c1 (clampTo ft1 e1 x1))
      else
        (if L ≤ x1 ∧ ft2 = -1 then linAt a2 b2 c2 L x1
          else quadAt a2 b2 c2 (clampTo ft2 e2 x1))) := by
  by_cases hc2 : x2 ≤ cutoff
  · have hc1 : x1 ≤ cutoff := h12.trans hc2
    rw [if_pos hc1, if_pos hc2]
    refine max_le_max le_rfl ?_
    rw [hft1]
    exact clampQuad_anti_put a1 b1 c1 e1 x1 x2 ha1 he1 h12
  · by_cases hc1 : x1 ≤ cutoff
    · rw [if_neg hc2, if_pos hc1]
      exact le_trans
        (put_right_le_stitch a2 b2 c2 L cutoff ft2 e2 ha2 hft2 he2 hv hL x2
          (le_of_lt (lt_of_not_le hc2)))
        (le_max_left _ _)
    · rw [if_neg hc2, if_neg hc1]
      exact put_right_anti a2 b2 c2 L ft2 e2 ha2 hft2 he2 hv x1 x2 h12

/-- C2 (amended): for every constructor-accepted QuadraticProxyFunction
whose two quadratic coefficients are not numerically zero and whose
lowerCutoff does not cross the linear-extrapolation vertex (call with
a1 < 0: lowerCutoff <= -b1/(2 a1); put with a2 < 0:
-b2/(2 a2) <= lowerCutoff), evaluation is monotone non-decreasing for
calls and non-increasing for puts; the vertex-side condition is necessary
(see the counterexample). -/
theorem c2_monotonicity_amended :
    ∀ (t : OptType) (cutoff a1 b1 c1 a2 b2 c2 L cm cM : ℚ) (f : QPF),
      mkQuadraticProxyFunction t cutoff a1 b1 c1 a2 b2 c2 L cm cM = Except.ok f →
      close0 a1 = false → close0 a2 = false →
      (t = OptType.call → a1 < 0 → L ≤ -b1 / (2 * a1)) →
      (t = OptType.put → a2 < 0 → -b2 / (2 * a2) ≤ L) →
      ∀ (x1 x2 y1 y2 : ℚ), x1 < x2 →
        evalQPF f x1 = some y1 → evalQPF f x2 = some y2 →
        (t = OptType.call → y1 ≤ y2) ∧ (t = OptType.put → y2 ≤ y1) := by
  intro t cutoff a1 b1 c1 a2 b2 c2 L cm cM f hmk hc1 hc2 hvC hvP x1 x2 y1 y2 h12 he1 he2
  have ha1 := close0_false_ne a1 hc1
  have ha2 := close0_false_ne a2 hc2
  unfold mkQuadraticProxyFunction at hmk
  by_cases horder : ((t = OptType.call ∧ L ≤ cutoff) ∨ (t = OptType.put ∧ L ≥ cutoff))
  case neg =>
    rw [if_pos horder] at hmk
    cases hmk
  case pos =>
    rw [if_neg (not_not_intro horder)] at hmk
    rw [if_neg (by simp [hc1])] at hmk
    rw [if_neg (by simp [hc2])] at hmk
    injection hmk with hlit
    simp only [hc1, hc2, Bool.false_eq_true, if_false] at hlit
    subst hlit
    rw [evalQPF_some] at he1 he2
    injection he1 with hy1
    injection he2 with hy2
    subst hy1
    subst hy2
    constructor
    · intro ht
      subst ht
      have hL : L ≤ cutoff := by
        rcases horder with ⟨_, h⟩ | ⟨habs, _⟩
        · exact h
        · cases habs
      have hne : (OptType.call = OptType.put) = False := by simp
      simp only [eq_self_iff_true, if_true, hne, if_false, true_and, and_true, false_and, and_false, one_mul]
      exact call_val_mono a1 b1 c1 a2 b2 c2 cutoff L _ _ _ _ ha1 ha2 rfl rfl rfl rfl hL
        (hvC rfl) x1 x2 (le_of_lt h12)
    · intro ht
      subst ht
      have hL : cutoff ≤ L := by
        rcases horder with ⟨habs, _⟩ | ⟨_, h⟩
        · cases habs
        · exact h
      have hne : (OptType.put = OptType.call) = False := by simp
      have hswap1 : (-1 : ℤ) * (if a1 > 0 then -1 else 1) = (if a1 > 0 then 1 else -1) := by
        by_cases h : a1 > 0 <;> simp [h]
      have hswap2 : (-1 : ℤ) * (if a2 > 0 then -1 else 1) = (if a2 > 0 then 1 else -1) := by
        by_cases h : a2 > 0 <;> simp [h]
      simp only [eq_self_iff_true, if_true, hne, if_false, true_and, and_true, false_and, and_false, hswap1, hswap2]
      exact put_val_anti a1 b1 c1 a2 b2 c2 cutoff L _ _ _ _ ha1 ha2 rfl rfl rfl rfl hL
        (hvP rfl) x1 x2 (le_of_lt h12)

/-- C2 counterexample: the constructor accepts the call proxy
`qpfNonMonotone` (a1 = -1 with vertex 0, lowerCutoff = 1 right of it),
whose evaluation DECREASES from 1 at spot 0 to 0 at spot 3/2 — both
evaluations well inside the non-degenerate regime: the claimed
monotonicity fails for constructor-accepted call functions. -/
theorem c2_counterexample_nonmonotone :
    mkQuadraticProxyFunction OptType.call 2 (-1) 0 0 (-1) 4 0 1 0 2 =
        Except.ok qpfNonMonotone ∧
      evalQPF qpfNonMonotone 0 = some 1 ∧
      evalQPF qpfNonMonotone (3 / 2) = some 0 ∧
      (0 : ℚ) < 3 / 2 ∧ ¬ ((1 : ℚ) ≤ 0) := by
  refine ⟨?_, ?_, ?_, by norm_num, by norm_num⟩
  · norm_num [mkQuadraticProxyFunction, close0, qlEpsilon, qpfNonMonotone]
  · norm_num [evalQPF, leftQuadVal, clampTo, quadAt, linAt, qpfNonMonotone]
  · norm_num [evalQPF, leftQuadVal, clampTo, quadAt, linAt, qpfNonMonotone]
    decide

/-- C2 witness: the amended statement applied to a concrete accepted call
function with lowerCutoff left of both vertices, at spots 0 and 3. -/
theorem c2_monotonicity_amended_witness :
    mkQuadraticProxyFunction OptType.call 1 (-1) 0 0 (-1) 4 0 (-1) 0 1 =
        Except.ok qpfMonotoneWitness ∧
      evalQPF qpfMonotoneWitness 0 = some 0 ∧
      evalQPF qpfMonotoneWitness 3 = some 4 ∧
      (0 : ℚ) ≤ 4 := by
  have hmk : mkQuadraticProxyFunction OptType.call 1 (-1) 0 0 (-1) 4 0 (-1) 0 1 =
      Except.ok qpfMonotoneWitness := by
    norm_num [mkQuadraticProxyFunction, close0, qlEpsilon, qpfMonotoneWitness]
  have hev1 : evalQPF qpfMonotoneWitness 0 = some 0 := by
    norm_num [evalQPF, leftQuadVal, rightQuadVal, clampTo, quadAt, linAt, qpfMonotoneWitness]
    decide
  have hev2 : evalQPF qpfMonotoneWitness 3 = some 4 := by
    norm_num [evalQPF, leftQuadVal, rightQuadVal, clampTo, quadAt, linAt, qpfMonotoneWitness]
  refine ⟨hmk, hev1, hev2, ?_⟩
  exact (c2_monotonicity_amended OptType.call 1 (-1) 0 0 (-1) 4 0 (-1) 0 1
      qpfMonotoneWitness hmk (by norm_num [close0, qlEpsilon]) (by norm_num [close0, qlEpsilon])
      (fun _ hneg => by norm_num) (fun h => by cases h) 0 3 0 4 (by norm_num)
      hev1 hev2).1 rfl

end FxTarfProxy
